import Mathlib

/-!
# ride-hail: the resilient communication core

A shallow embedding of `pkg/mq` (consumer retry / dead-letter policy, consumer
life cycle, publisher and the broker client's reconnection logic), of
`pkg/server` (WebSocket manager and sessions), of the topology bootstrap
`cmd/initMq`, of the validation of ride requests and the fare calculator, and
of `pkg/uuid`, together with the properties proved about them.

Conventions of the embedding:

* Go `int` is read as a 64-bit integer and is represented by `Int`; every
  conversion to `int32` and every `int32` operation is written out with its
  two's-complement wrap-around (`toInt32`, `shl32`).
* Calls into the broker client (`Send`, `Ack`, `Nack`) and `time.Sleep` are
  recorded, in program order, as a list of `Effect`s.  What the environment
  answers (does the handler fail, does `Send` fail) is an explicit argument.
* A call of the WebSocket manager ends as an `Outcome`: it returns, it waits
  for a mutex, a `sync.Once` or a `sync.WaitGroup`, or it panics.
* A Go string that is inspected byte by byte (`pkg/uuid`) is the list of its
  bytes; a `float64` is not-a-number, an infinity or a rational number, and
  an arithmetic operation on it gives the exact result rounded to binary64.
* Logging is not modelled.
-/

namespace RideHail

namespace Mq

/-! ## Machine integers -/

/-- Go conversion `int32(x)`: the low 32 bits of `x`, read as two's complement. -/
def toInt32 (x : Int) : Int :=
  (x + 2147483648) % 4294967296 - 2147483648

/-- Go conversion `uint(x)` on a 64-bit platform. -/
def toUint (x : Int) : Nat :=
  (x % 18446744073709551616).toNat

/-- Go `a << s` at type `int32`: a shift count of 32 or more leaves no bit. -/
def shl32 (a : Int) (s : Nat) : Int :=
  if 32 ≤ s then 0 else toInt32 (a * (2 : Int) ^ s)

/-- Go `a * b` at type `int32`. -/
def mul32 (a b : Int) : Int :=
  toInt32 (a * b)

/-! ## Header tables -/

/-- Dynamic values an `amqp.Table` (`map[string]interface{}`) can hold; the
constructor records the Go dynamic type, which is what a type assertion
inspects. -/
inductive Value where
  | null
  | bool (b : Bool)
  | int8 (n : Int)
  | int16 (n : Int)
  | int32 (n : Int)
  | int64 (n : Int)
  | int (n : Int)
  | str (s : String)
  | bytes (b : List Nat)
  deriving DecidableEq, Repr

/-- An `amqp.Table`: a finite map from header names to values, kept as an
association list. -/
def Table : Type := List (String × Value)

instance : DecidableEq Table := inferInstanceAs (DecidableEq (List (String × Value)))

/-- Map read `t[k]` (value and presence). -/
def Table.lookup : Table → String → Option Value
  | [], _ => none
  | (k', v) :: rest, k => if k' = k then some v else Table.lookup rest k

/-- Map write `t[k] = v`: overwrite the entry of `k`, or add one. -/
def Table.assign : Table → String → Value → Table
  | [], k, v => [(k, v)]
  | (k', v') :: rest, k, v =>
    if k' = k then (k, v) :: rest else (k', v') :: Table.assign rest k v

/-- The keys of a table, in storage order. -/
def Table.keys (t : Table) : List String :=
  List.map Prod.fst t

/-- The loop `for k, v := range src { dst[k] = v }`. -/
def Table.copyInto (src dst : Table) : Table :=
  List.foldl (fun acc kv => Table.assign acc kv.1 kv.2) dst src

/-! ## Deliveries, publishings, consumer -/

/-- The fields of `amqp.Delivery` that the consumer reads. -/
structure Delivery where
  Headers : Option Table
  ContentType : String
  CorrelationId : String
  MessageId : String
  Timestamp : Int
  DeliveryMode : Nat
  Body : List Nat
  DeliveryTag : Nat
  deriving DecidableEq

/-- The fields of `amqp.Publishing` that the consumer sets; all others keep
their zero value. -/
structure Publishing where
  Headers : Table
  ContentType : String
  CorrelationId : String
  MessageId : String
  Timestamp : Int
  DeliveryMode : Nat
  Body : List Nat
  deriving DecidableEq

/-- The configuration fields of `MessageConsumer`. -/
structure MessageConsumer where
  queue : String
  consumerTag : String
  prefetchCount : Int
  maxRetries : Int
  workers : Int
  deriving DecidableEq

/-- Calls made by `processMessage`, in program order.  `send` records the call
`client.Send(ctx, exchange, routingKey, publishing)` and whether it returned
`nil`. -/
inductive Effect where
  | sleep (ms : Int)
  | send (exchange routingKey : String) (p : Publishing) (ok : Bool)
  | ack (tag : Nat) (multiple : Bool)
  | nack (tag : Nat) (multiple requeue : Bool)
  deriving DecidableEq

/-- The retry count `processMessage` reads from a delivery (consumer.go 137-145). -/
def retryCountOf (d : Delivery) : Int :=
  match d.Headers with
  | none => 0
  | some t =>
    match Table.lookup t "x-retry-count" with
    | some (Value.int32 count) => count
    | _ => 0

/-- The header table built by `republishWithRetry` (consumer.go 204-211). -/
def republishHeaders (d : Delivery) (newRetryCount : Int) : Table :=
  let headers : Table := []
  let headers :=
    match d.Headers with
    | some t => Table.copyInto t headers
    | none => headers
  Table.assign headers "x-retry-count" (Value.int32 (toInt32 newRetryCount))

/-- The value of `delayMs` when `time.Sleep` is reached (consumer.go 214-217).
The shifted constant `1` and the factor `100` take the type `int32` of the
enclosing conversion. -/
def republishDelayMs (newRetryCount : Int) : Int :=
  let delayMs := mul32 100 (shl32 1 (toUint (newRetryCount - 1)))
  if delayMs > 5000 then 5000 else delayMs

/-- The message built by `republishWithRetry` (consumer.go 219-227). -/
def republishPublishing (d : Delivery) (newRetryCount : Int) : Publishing :=
  { Headers := republishHeaders d newRetryCount
    ContentType := d.ContentType
    CorrelationId := d.CorrelationId
    MessageId := d.MessageId
    Timestamp := d.Timestamp
    DeliveryMode := d.DeliveryMode
    Body := d.Body }

/-- `republishWithRetry`: the effects it performs and whether it returns `nil`.
`sendOk` is the answer of `client.Send`. -/
def republishWithRetry (c : MessageConsumer) (sendOk : Bool) (d : Delivery)
    (newRetryCount : Int) : List Effect × Bool :=
  ([Effect.sleep (republishDelayMs newRetryCount),
    Effect.send "" c.queue (republishPublishing d newRetryCount) sendOk], sendOk)

/-- `processMessage`: the effects performed for one delivery.  `handlerOk` tells
whether the handler returned `nil`, `sendOk` whether a republish would
succeed.  Errors of `Ack` and `Nack` are only logged. -/
def processMessage (c : MessageConsumer) (handlerOk sendOk : Bool) (d : Delivery) :
    List Effect :=
  let retryCount := retryCountOf d
  if handlerOk then
    [Effect.ack d.DeliveryTag false]
  else if retryCount < c.maxRetries then
    let r := republishWithRetry c sendOk d (retryCount + 1)
    if r.2 then
      r.1 ++ [Effect.ack d.DeliveryTag false]
    else
      r.1 ++ [Effect.nack d.DeliveryTag false false]
  else
    [Effect.nack d.DeliveryTag false false]

/-! ## Reading an effect trace -/

/-- The messages handed to `Send` that were accepted. -/
def republished : List Effect → List Publishing
  | [] => []
  | Effect.send _ _ p true :: rest => p :: republished rest
  | _ :: rest => republished rest

/-- Every call of `Send`, accepted or not. -/
def sendCalls : List Effect → List (String × String × Publishing)
  | [] => []
  | Effect.send e k p _ :: rest => (e, k, p) :: sendCalls rest
  | _ :: rest => sendCalls rest

/-- The positive acknowledgements of a trace. -/
def acks : List Effect → List (Nat × Bool)
  | [] => []
  | Effect.ack t m :: rest => (t, m) :: acks rest
  | _ :: rest => acks rest

/-- The negative acknowledgements of a trace. -/
def nacks : List Effect → List (Nat × Bool × Bool)
  | [] => []
  | Effect.nack t m r :: rest => (t, m, r) :: nacks rest
  | _ :: rest => nacks rest

/-- The durations passed to `time.Sleep`. -/
def sleeps : List Effect → List Int
  | [] => []
  | Effect.sleep ms :: rest => ms :: sleeps rest
  | _ :: rest => sleeps rest

/-- The `x-retry-count` header of a message. -/
def retryHeader (p : Publishing) : Option Value :=
  Table.lookup p.Headers "x-retry-count"

/-! ## Worker loop and retry chains -/

/-- The loop of `worker` over the deliveries it receives before it is stopped:
each delivery comes with the answer of the handler and of `Send` for it. -/
def worker (c : MessageConsumer) : List (Bool × Bool × Delivery) → List Effect
  | [] => []
  | (handlerOk, sendOk, d) :: rest => processMessage c handlerOk sendOk d ++ worker c rest

/-- The broker hands a message published to the consumer's queue back as a
delivery with the same properties, under a new delivery tag. -/
def deliver (p : Publishing) (tag : Nat) : Delivery :=
  { Headers := some p.Headers
    ContentType := p.ContentType
    CorrelationId := p.CorrelationId
    MessageId := p.MessageId
    Timestamp := p.Timestamp
    DeliveryMode := p.DeliveryMode
    Body := p.Body
    DeliveryTag := tag }

/-- A message chain: the consumer processes a delivery and every message it
republishes comes back as its next delivery, until it republishes nothing.
`handlerOk i` is the handler's answer on the delivery number `i` of the chain
(counted from `0`), every `Send` succeeds, and `fuel` bounds the number of
deliveries processed. -/
def runChain (c : MessageConsumer) (handlerOk : Nat → Bool) :
    Nat → Nat → Delivery → List Effect
  | 0, _, _ => []
  | fuel + 1, i, d =>
    let es := processMessage c (handlerOk i) true d
    match republished es with
    | p :: _ => es ++ runChain c handlerOk fuel (i + 1) (deliver p (d.DeliveryTag + 1))
    | [] => es

/-- The delivery that follows a retried delivery `d` in a chain. -/
def nextDelivery (d : Delivery) : Delivery :=
  deliver (republishPublishing d (retryCountOf d + 1)) (d.DeliveryTag + 1)

/-- The effects of one retried delivery whose republish succeeds. -/
def retryStep (c : MessageConsumer) (d : Delivery) : List Effect :=
  [Effect.sleep (republishDelayMs (retryCountOf d + 1)),
   Effect.send "" c.queue (republishPublishing d (retryCountOf d + 1)) true,
   Effect.ack d.DeliveryTag false]

/-- The effects of `n` consecutive retried deliveries of a chain. -/
def retrySteps (c : MessageConsumer) : Nat → Delivery → List Effect
  | 0, _ => []
  | n + 1, d => retryStep c d ++ retrySteps c n (nextDelivery d)

/-- The two header maps alive in `republishWithRetry`: the one the delivery
refers to and the local `headers`. -/
structure HeaderStore where
  deliveryHeaders : Option Table
  headers : Table
  deriving DecidableEq

/-- The map statements of `republishWithRetry` (consumer.go 204-211) run on the
store: `headers` is a fresh table and every write goes to it. -/
def republishStore (d : Delivery) (newRetryCount : Int) : HeaderStore :=
  let st : HeaderStore := { deliveryHeaders := d.Headers, headers := [] }
  let st : HeaderStore :=
    match st.deliveryHeaders with
    | some t => { st with headers := Table.copyInto t st.headers }
    | none => st
  { st with headers :=
      Table.assign st.headers "x-retry-count" (Value.int32 (toInt32 newRetryCount)) }

/-- The header value a delivery carries under key `k`. -/
def Delivery.header (d : Delivery) (k : String) : Option Value :=
  match d.Headers with
  | some t => Table.lookup t k
  | none => none

/-- A table is a map: no key occurs twice. -/
def Table.WF (t : Table) : Prop :=
  (Table.keys t).Nodup

instance (t : Table) : Decidable (Table.WF t) :=
  inferInstanceAs (Decidable (List.Nodup (Table.keys t)))

/-- The integer a header value carries, whatever its width. -/
def Value.integer? : Value → Option Int
  | Value.int8 n => some n
  | Value.int16 n => some n
  | Value.int32 n => some n
  | Value.int64 n => some n
  | Value.int n => some n
  | _ => none

/-- The retry count in the words of the specification: the integer value of
the `x-retry-count` header when it carries an integer, `0` otherwise. -/
def retryCountSpec (d : Delivery) : Int :=
  match d.header "x-retry-count" with
  | some v => (v.integer?).getD 0
  | none => 0

/-- The delay in the words of the specification: `min(5000, 100 * 2^r)` ms. -/
def delaySpec (r : Nat) : Int :=
  min 5000 (100 * 2 ^ r)

/-! ## The broker client (`mq.go`)

The goroutines working on one `Client` are interleaved step by step.  A step is
one synchronised section or one external call of the source; the shared
fields are read and written only inside such steps. -/

/-- Shared fields of `Client`, with the calls already made kept as history. -/
structure Client where
  /-- handle of the connection in use (`conn`) -/
  conn : Nat
  /-- handle of the channel in use (`ch`) -/
  ch : Nat
  /-- number of tokens buffered in `connectionReady` (capacity 1) -/
  connectionReady : Nat
  isReconnecting : Bool
  closed : Bool
  /-- history: number of calls of `Connect` made by `reconnect` -/
  dials : Nat
  /-- history: durations passed to `time.Sleep` by `reconnect`, in nanoseconds -/
  slept : List Nat
  /-- history: handles of the connections and channels on which `Close` was
  called; every handle names one connection or one channel -/
  released : List Nat
  /-- history: number of calls of `PublishWithContext` made by `Send` -/
  published : Nat
  deriving DecidableEq

/-- What the environment answers to the step a goroutine takes: a call succeeds
and yields a handle (or a value arrives on the channel waited on), or the
call fails (or the channel waited on is closed, or the context is done). -/
inductive Answer where
  | ok (handle : Nat)
  | fail
  deriving DecidableEq

/-- Positions inside `reconnect` (mq.go 114-167). -/
inductive Pc where
  /-- 115-121: lock, test and set `isReconnecting` -/
  | entry
  /-- 130-136: loop condition, then the test of `closed` -/
  | loopHead (attempt : Nat)
  /-- 138: `Connect(c.config)` -/
  | dial (attempt : Nat)
  /-- 145: `conn.Channel()` -/
  | openChannel (attempt conn : Nat)
  /-- 140-143 and 147-151: `time.Sleep(delay)`, `continue` -/
  | backoff (attempt : Nat)
  /-- 154-155: store the new handles -/
  | install (conn ch : Nat)
  /-- 157-160: non-blocking send on `connectionReady` -/
  | signal
  /-- 163: `go c.monitorConnection()` -/
  | restart
  /-- 122-126: the deferred function clears `isReconnecting` -/
  | exit
  /-- returned -/
  | done
  deriving DecidableEq

/-- Positions inside `monitorConnection` (mq.go 95-111). -/
inductive MonPc where
  /-- 96: register for close notifications -/
  | start
  /-- 98: receive from `closeChan` -/
  | wait
  /-- 102-107: test of `closed` -/
  | check
  /-- 109: inside the call of `reconnect` -/
  | call (pc : Pc)
  | done
  deriving DecidableEq

/-- Positions inside `Close` (mq.go 180-188). -/
inductive ClosePc where
  /-- 181-183: set `closed` -/
  | start
  /-- 184: `c.ch.Close()` -/
  | closeChannel
  /-- 187: `c.conn.Close()` -/
  | closeConn
  | done
  deriving DecidableEq

/-- Positions inside `Send` (mq.go 204-209) and `waitForConnection` (170-178). -/
inductive SendPc where
  /-- 171-177: the `select` -/
  | wait
  /-- 173: put the token back -/
  | restore
  /-- 208: `PublishWithContext` -/
  | publish
  /-- returned, with `true` for a `nil` error -/
  | done (ok : Bool)
  deriving DecidableEq

/-- A goroutine working on the client. -/
inductive Thread where
  | monitor (pc : MonPc)
  | closer (pc : ClosePc)
  | sender (pc : SendPc)
  deriving DecidableEq

/-- The bound `maxRetries := 10` of `reconnect`. -/
def reconnectMaxRetries : Nat := 10

/-- The delay `min(baseDelay * 2^(attempt-1), maxDelay)` of `reconnect`, in
nanoseconds (`baseDelay` 1 s, `maxDelay` 30 s). -/
def reconnectDelay (attempt : Nat) : Nat :=
  min (1000000000 * 2 ^ (attempt - 1)) 30000000000

/-- One step of `reconnect`: the new client state, the next position, and
whether a monitor goroutine is started. -/
def reconnectStep (s : Client) (pc : Pc) (env : Answer) : Client × Pc × Bool :=
  match pc with
  | Pc.entry =>
    if s.isReconnecting then (s, Pc.done, false)
    else ({ s with isReconnecting := true }, Pc.loopHead 1, false)
  | Pc.loopHead attempt =>
    if attempt ≤ reconnectMaxRetries then
      if s.closed then (s, Pc.exit, false) else (s, Pc.dial attempt, false)
    else (s, Pc.exit, false)
  | Pc.dial attempt =>
    match env with
    | Answer.ok conn => ({ s with dials := s.dials + 1 }, Pc.openChannel attempt conn, false)
    | Answer.fail => ({ s with dials := s.dials + 1 }, Pc.backoff attempt, false)
  | Pc.openChannel attempt conn =>
    match env with
    | Answer.ok ch => (s, Pc.install conn ch, false)
    | Answer.fail => ({ s with released := conn :: s.released }, Pc.backoff attempt, false)
  | Pc.backoff attempt =>
    ({ s with slept := s.slept ++ [reconnectDelay attempt] }, Pc.loopHead (attempt + 1), false)
  | Pc.install conn ch => ({ s with conn := conn, ch := ch }, Pc.signal, false)
  | Pc.signal =>
    if s.connectionReady < 1 then
      ({ s with connectionReady := s.connectionReady + 1 }, Pc.restart, false)
    else (s, Pc.restart, false)
  | Pc.restart => (s, Pc.exit, true)
  | Pc.exit => ({ s with isReconnecting := false }, Pc.done, false)
  | Pc.done => (s, Pc.done, false)

/-- One step of `monitorConnection`.  At `wait` the answer `ok` is a loss
notification and `fail` a closed notification channel. -/
def monitorStep (s : Client) (pc : MonPc) (env : Answer) : Client × MonPc × Bool :=
  match pc with
  | MonPc.start => (s, MonPc.wait, false)
  | MonPc.wait =>
    match env with
    | Answer.ok _ => (s, MonPc.check, false)
    | Answer.fail => (s, MonPc.done, false)
  | MonPc.check => if s.closed then (s, MonPc.done, false) else (s, MonPc.call Pc.entry, false)
  | MonPc.call Pc.done => (s, MonPc.wait, false)
  | MonPc.call pc =>
    let r := reconnectStep s pc env
    (r.1, MonPc.call r.2.1, r.2.2)
  | MonPc.done => (s, MonPc.done, false)

/-- One step of `Close`. -/
def closeStep (s : Client) (pc : ClosePc) (env : Answer) : Client × ClosePc :=
  match pc with
  | ClosePc.start => ({ s with closed := true }, ClosePc.closeChannel)
  | ClosePc.closeChannel =>
    match env with
    | Answer.ok _ => ({ s with released := s.ch :: s.released }, ClosePc.closeConn)
    | Answer.fail => ({ s with released := s.ch :: s.released }, ClosePc.done)
  | ClosePc.closeConn => ({ s with released := s.conn :: s.released }, ClosePc.done)
  | ClosePc.done => (s, ClosePc.done)

/-- What a method of the channel the client holds answers to a call: the
library answers every call on a channel on which `Close` has been called with
its closed error, whatever the broker would have answered. -/
def Client.channelAnswer (s : Client) (env : Answer) : Answer :=
  if s.ch ∈ s.released then Answer.fail else env

/-- One step of `Send`.  At `wait` the answer `fail` takes the `ctx.Done()`
branch of the `select`; a goroutine that cannot proceed stays where it is.  At
`publish` the answer is what `PublishWithContext` returns. -/
def sendStep (s : Client) (pc : SendPc) (env : Answer) : Client × SendPc :=
  match pc with
  | SendPc.wait =>
    match env with
    | Answer.ok _ =>
      if 0 < s.connectionReady then
        ({ s with connectionReady := s.connectionReady - 1 }, SendPc.restore)
      else (s, SendPc.wait)
    | Answer.fail => (s, SendPc.done false)
  | SendPc.restore =>
    if s.connectionReady < 1 then
      ({ s with connectionReady := s.connectionReady + 1 }, SendPc.publish)
    else (s, SendPc.restore)
  | SendPc.publish =>
    match env with
    | Answer.ok _ => ({ s with published := s.published + 1 }, SendPc.done true)
    | Answer.fail => ({ s with published := s.published + 1 }, SendPc.done false)
  | SendPc.done ok => (s, SendPc.done ok)

/-- One step of a goroutine: the new client state, the goroutine afterwards and
the goroutines it starts. -/
def threadStep (s : Client) (t : Thread) (env : Answer) : Client × Thread × List Thread :=
  match t with
  | Thread.monitor pc =>
    let r := monitorStep s pc env
    (r.1, Thread.monitor r.2.1, if r.2.2 then [Thread.monitor MonPc.start] else [])
  | Thread.closer pc =>
    let r := closeStep s pc env
    (r.1, Thread.closer r.2, [])
  | Thread.sender pc =>
    let r := sendStep s pc (match pc with
      | SendPc.publish => s.channelAnswer env
      | _ => env)
    (r.1, Thread.sender r.2, [])

/-- The goroutine number `i` takes a step; goroutines it starts join the end of
the list.  Nothing happens when there is no goroutine number `i`. -/
def stepAt (s : Client) : List Thread → Nat → Answer → Client × List Thread
  | [], _, _ => (s, [])
  | t :: ts, 0, env =>
    let r := threadStep s t env
    (r.1, r.2.1 :: (ts ++ r.2.2))
  | t :: ts, i + 1, env =>
    let r := stepAt s ts i env
    (r.1, t :: r.2)

/-- A client together with the goroutines working on it. -/
structure System where
  client : Client
  threads : List Thread
  deriving DecidableEq

/-- One scheduled step. -/
def System.step (sys : System) (i : Nat) (env : Answer) : System :=
  let r := stepAt sys.client sys.threads i env
  { client := r.1, threads := r.2 }

/-- A run: the schedule names, step after step, the goroutine that moves and
the answer it gets. -/
def System.run (sys : System) : List (Nat × Answer) → System
  | [] => sys
  | (i, env) :: rest => System.run (sys.step i env) rest

/-- A reconnection attempt is running at this position: the flag has been
taken and the deferred function has not yet run. -/
def Pc.running : Pc → Bool
  | Pc.entry => false
  | Pc.done => false
  | _ => true

/-- The goroutine is inside a running reconnection attempt. -/
def Thread.reconnecting : Thread → Bool
  | Thread.monitor (MonPc.call pc) => pc.running
  | _ => false

/-- Number of goroutines inside a running reconnection attempt. -/
def runningAttempts : List Thread → Nat
  | [] => 0
  | t :: ts => (if t.reconnecting then 1 else 0) + runningAttempts ts

/-- The goroutine has passed the test of `closed` and is about to call `Connect`. -/
def Thread.aboutToDial : Thread → Bool
  | Thread.monitor (MonPc.call (Pc.dial _)) => true
  | _ => false

/-- Number of goroutines about to call `Connect`. -/
def pendingDials : List Thread → Nat
  | [] => 0
  | t :: ts => (if t.aboutToDial then 1 else 0) + pendingDials ts

/-- The client and goroutines right after `NewClient`: ready, one monitor. -/
def newClientSystem (conn ch : Nat) : System :=
  { client :=
      { conn := conn, ch := ch, connectionReady := 1, isReconnecting := false,
        closed := false, dials := 0, slept := [], released := [], published := 0 }
    threads := [Thread.monitor MonPc.start] }

/-- An upper bound on the steps a call of `reconnect` still takes from a
position: every step lowers it. -/
def Pc.stepsLeft : Pc → Nat
  | Pc.entry => 46
  | Pc.loopHead attempt => 4 * (11 - attempt) + 5
  | Pc.dial attempt => 4 * (11 - (attempt + 1)) + 8
  | Pc.openChannel attempt _ => 4 * (11 - (attempt + 1)) + 7
  | Pc.backoff attempt => 4 * (11 - (attempt + 1)) + 6
  | Pc.install _ _ => 4
  | Pc.signal => 3
  | Pc.restart => 2
  | Pc.exit => 1
  | Pc.done => 0

/-- A client with a monitor inside the first iteration of `reconnect`, past the
test of `closed`, and a goroutine that has just set `closed` in `Close`. -/
def closeDuringDial : System :=
  (({ newClientSystem 1 2 with
        threads := [Thread.monitor MonPc.start, Thread.closer ClosePc.start] } : System).run
    [(0, Answer.ok 0), (0, Answer.ok 0), (0, Answer.ok 0), (0, Answer.ok 0),
     (0, Answer.ok 0), (1, Answer.ok 0)])

/-- The monitor of `closeDuringDial` goes on: `Connect` yields connection 7,
`Channel` yields channel 8, and `reconnect` runs to its end. -/
def closeDuringDialRest : List (Nat × Answer) :=
  [(0, Answer.ok 7), (0, Answer.ok 8), (0, Answer.ok 0), (0, Answer.ok 0),
   (0, Answer.ok 0), (0, Answer.ok 0)]

/-- The number of running attempts equals the flag, read as 0 or 1. -/
def flagMatches (sys : System) : Prop :=
  runningAttempts sys.threads = if sys.client.isReconnecting then 1 else 0

/-! ## Calls run alone -/

/-- A call of `reconnect` run alone from a position: one answer of the
environment per step. -/
def reconnectRun (s : Client) (pc : Pc) : List Answer → Client × Pc
  | [] => (s, pc)
  | env :: rest =>
    reconnectRun (reconnectStep s pc env).1 (reconnectStep s pc env).2.1 rest

/-- The delays of the attempts 1, ..., `k`. -/
def backoffDelays (k : Nat) : List Nat :=
  List.map (fun i => reconnectDelay (i + 1)) (List.range k)

/-- What a call of `reconnect` that started with `dials0` calls of `Connect`
and the sleeps `slept0` on record has added to them when it stands at a
position: the attempt number tells the calls made and the sleeps taken. -/
def attemptRecord (dials0 : Nat) (slept0 : List Nat) (s : Client) : Pc → Prop
  | Pc.entry => s.dials = dials0 ∧ s.slept = slept0
  | Pc.loopHead attempt =>
    1 ≤ attempt ∧ attempt ≤ 11 ∧ s.dials = dials0 + (attempt - 1) ∧
      s.slept = slept0 ++ backoffDelays (attempt - 1)
  | Pc.dial attempt =>
    1 ≤ attempt ∧ attempt ≤ 10 ∧ s.dials = dials0 + (attempt - 1) ∧
      s.slept = slept0 ++ backoffDelays (attempt - 1)
  | Pc.openChannel attempt _ =>
    1 ≤ attempt ∧ attempt ≤ 10 ∧ s.dials = dials0 + attempt ∧
      s.slept = slept0 ++ backoffDelays (attempt - 1)
  | Pc.backoff attempt =>
    1 ≤ attempt ∧ attempt ≤ 10 ∧ s.dials = dials0 + attempt ∧
      s.slept = slept0 ++ backoffDelays (attempt - 1)
  | _ => ∃ k, k ≤ 10 ∧ s.dials ≤ dials0 + 10 ∧ s.slept = slept0 ++ backoffDelays k

/-- A call of `Send` run alone from a position: one answer per step. -/
def sendRun (s : Client) (pc : SendPc) : List Answer → Client × SendPc
  | [] => (s, pc)
  | env :: rest => sendRun (sendStep s pc env).1 (sendStep s pc env).2 rest

/-- Consecutive calls of `Send`, each run to its end before the next starts,
each with a context that is not done; the list gives the answers of
`PublishWithContext`.  The result lists where each call ended. -/
def sendSequence (s : Client) : List Answer → Client × List SendPc
  | [] => (s, [])
  | pub :: rest =>
    let r := sendRun s SendPc.wait [Answer.ok 0, Answer.ok 0, pub]
    ((sendSequence r.1 rest).1, r.2 :: (sendSequence r.1 rest).2)

/-- The channel methods the client forwards to. -/
inductive ChannelOp where
  | queueDeclare
  | queueBind
  | exchangeDeclare
  | consume
  | qos
  | ack
  | nack
  | reject
  deriving DecidableEq

/-- `CreateQueue`, `CreateQueueWithArgs`, `CreateBinding`, `CreateExchange`,
`Consume`, `SetQos`, `Ack`, `Nack` and `Reject` (mq.go 190-244): one call of
the method on `c.ch`, whose answer is returned.  The result names the channel
called and tells whether the error returned is `nil`; `env` is the answer of
the broker. -/
def Client.forward (s : Client) (op : ChannelOp) (env : Answer) : Nat × ChannelOp × Bool :=
  match s.channelAnswer env with
  | Answer.ok _ => (s.ch, op, true)
  | Answer.fail => (s.ch, op, false)

/-- A goroutine stands at the `select` of `waitForConnection`. -/
def Thread.atSelect : Thread → Bool
  | Thread.sender SendPc.wait => true
  | _ => false

/-- The first goroutine stands at the restore step of `waitForConnection`, the
slot is full, and no goroutine stands at the `select`, the one place where a
token is taken out. -/
def restoreStuck (sys : System) : Prop :=
  ∃ rest : List Thread,
    sys.threads = Thread.sender SendPc.restore :: rest ∧
    sys.client.connectionReady = 1 ∧
    ∀ t ∈ rest, t.atSelect = false

/-- A first delivery: no header table. -/
def freshDelivery : Delivery :=
  { Headers := none
    ContentType := "application/json"
    CorrelationId := "corr-1"
    MessageId := "msg-1"
    Timestamp := 1700000000
    DeliveryMode := 2
    Body := [123, 125]
    DeliveryTag := 1 }

/-- A delivery carrying `x-retry-count = v` next to a trace header. -/
def deliveryWith (v : Value) : Delivery :=
  { freshDelivery with Headers := some [("trace-id", Value.str "t-9"), ("x-retry-count", v)] }

/-- A consumer of queue `ride_requests` with the given retry bound. -/
def consumerWith (maxRetries : Int) : MessageConsumer :=
  { queue := "ride_requests"
    consumerTag := "ride-consumer"
    prefetchCount := 10
    maxRetries := maxRetries
    workers := 5 }

/-- A client on which `Close` has set the flag while its monitor still waits
for a notification. -/
def closedWhileWaiting : System :=
  (({ newClientSystem 1 2 with
        threads := [Thread.monitor MonPc.start, Thread.closer ClosePc.start] } : System).run
    [(0, Answer.ok 0), (1, Answer.ok 0)])

/-- The monitor steps from its start to the head of the first iteration of
`reconnect`, after a loss notification. -/
def lossDetected (i : Nat) : List (Nat × Answer) :=
  [(i, Answer.ok 0), (i, Answer.ok 0), (i, Answer.ok 0), (i, Answer.ok 0)]

/-- One failed attempt of goroutine `i`: the test of `closed`, a `Connect` that
fails, the sleep. -/
def failedAttempt (i : Nat) : List (Nat × Answer) :=
  [(i, Answer.ok 0), (i, Answer.fail), (i, Answer.ok 0)]

/-- The steps of `n` failed attempts in a row. -/
def failedAttempts (i : Nat) : Nat → List (Nat × Answer)
  | 0 => []
  | n + 1 => failedAttempt i ++ failedAttempts i n

/-- A ready client with its monitor and one caller of `Send`. -/
def monitorAndSender : System :=
  { newClientSystem 1 2 with threads := [Thread.monitor MonPc.start, Thread.sender SendPc.wait] }

/-- The connection of `monitorAndSender` is lost and three attempts to reconnect
have failed; the fourth is about to start. -/
def reconnecting : System :=
  monitorAndSender.run (lossDetected 0 ++ failedAttempts 0 3)

/-- The connection of `monitorAndSender` is lost and all ten attempts have
failed; `reconnect` has given up and returned. -/
def reconnectGivenUp : System :=
  monitorAndSender.run
    (lossDetected 0 ++ failedAttempts 0 10 ++ [(0, Answer.ok 0), (0, Answer.ok 0)])

/-- A call of `Send` by goroutine `i` with a context that is not done, on a
channel that accepts the message. -/
def sendSteps (i : Nat) : List (Nat × Answer) :=
  [(i, Answer.ok 0), (i, Answer.ok 0), (i, Answer.ok 0)]

/-- A caller of `Send` has taken the readiness token and, before it puts it
back, a successful `reconnect` has signalled readiness. -/
def signalledWhileDrained : System :=
  (({ newClientSystem 1 2 with
        threads := [Thread.sender SendPc.wait, Thread.monitor MonPc.start] } : System).run
    (lossDetected 1 ++
      [(1, Answer.ok 0), (1, Answer.ok 7), (1, Answer.ok 8), (1, Answer.ok 0),
       (0, Answer.ok 0), (1, Answer.ok 0)]))

/-- `ConsumerConfig`; the handler is named by a number. -/
structure ConsumerConfig where
  Handler : Nat
  Queue : String
  ConsumerTag : String
  PrefetchCount : Int
  MaxRetries : Int
  Workers : Int
  deriving DecidableEq

/-- `NewConsumer` (consumer.go 55-76): the consumer built and the handler it
holds. -/
def NewConsumer (config : ConsumerConfig) : MessageConsumer × Nat :=
  let config := if config.PrefetchCount = 0 then { config with PrefetchCount := 10 } else config
  let config := if config.MaxRetries = 0 then { config with MaxRetries := 3 } else config
  let config := if config.Workers = 0 then { config with Workers := 5 } else config
  ({ queue := config.Queue
     consumerTag := config.ConsumerTag
     prefetchCount := config.PrefetchCount
     maxRetries := config.MaxRetries
     workers := config.Workers }, config.Handler)

/-- How a call of `Start` ends. -/
inductive StartResult where
  /-- `SetQos` failed -/
  | qosFailed
  /-- `Consume` failed -/
  | consumeFailed
  /-- `nil`, with the numbers of the worker goroutines launched -/
  | started (workers : List Nat)
  deriving DecidableEq

/-- `MessageConsumer.Start` (consumer.go 78-100); `qosOk` and `consumeOk` are the
answers of the client.  The loop `for i := 0; i < c.workers; i++` launches
worker `i`. -/
def MessageConsumer.Start (c : MessageConsumer) (qosOk consumeOk : Bool) : StartResult :=
  if !qosOk then StartResult.qosFailed
  else if !consumeOk then StartResult.consumeFailed
  else StartResult.started (List.range c.workers.toNat)

/-- The part of a started consumer that `Stop` works on: the `sync.Once`, the
stop channel, and the number of workers that have not yet exited (the
counter of `c.wg`). -/
structure ConsumerRun where
  onceUsed : Bool
  stopChanClosed : Bool
  running : Nat
  deriving DecidableEq

/-- The error returned by `Stop`. -/
inductive StopResult where
  | nil
  | ctxErr
  deriving DecidableEq

/-- `MessageConsumer.Stop` (consumer.go 235-257).  While the first call waits,
`exits` workers exit; `ctxDone` tells whether the context is done when the
`select` is decided, and `takeDone` which branch is taken when both are
ready.  The result is `none` as long as neither branch is ready. -/
def MessageConsumer.Stop (s : ConsumerRun) (exits : Nat) (ctxDone takeDone : Bool) :
    Option (ConsumerRun × StopResult) :=
  if s.onceUsed then some (s, StopResult.nil)
  else
    let s1 : ConsumerRun :=
      { onceUsed := true, stopChanClosed := true, running := s.running - exits }
    if s1.running = 0 then
      if ctxDone && !takeDone then some (s1, StopResult.ctxErr) else some (s1, StopResult.nil)
    else if ctxDone then some (s1, StopResult.ctxErr)
    else none

/-- `ConsumerGroup`: the consumers, each named by a number. -/
structure ConsumerGroup where
  consumers : List Nat
  deriving DecidableEq

/-- `NewConsumerGroup`. -/
def NewConsumerGroup : ConsumerGroup :=
  { consumers := [] }

/-- `ConsumerGroup.Add`. -/
def ConsumerGroup.Add (g : ConsumerGroup) (consumer : Nat) : ConsumerGroup :=
  { consumers := g.consumers ++ [consumer] }

/-- The loop of `StopAll` (consumer.go 292-296): the calls of `Stop` it makes,
in order.  `stopFails` tells for each consumer whether its `Stop` returns an
error, which is logged. -/
def stopEach (stopFails : Nat → Bool) : List Nat → List (Nat × Bool)
  | [] => []
  | consumer :: rest => (consumer, stopFails consumer) :: stopEach stopFails rest

/-- `ConsumerGroup.StopAll` (consumer.go 289-312): the calls of `Stop` made, with
the error each returned, and the error of `StopAll` itself, decided by the
`select` over the start goroutines and the context as in `Stop`. -/
def ConsumerGroup.StopAll (g : ConsumerGroup) (stopFails : Nat → Bool)
    (startsDone ctxDone takeDone : Bool) : List (Nat × Bool) × Option StopResult :=
  (stopEach stopFails g.consumers,
    if startsDone then
      if ctxDone && !takeDone then some StopResult.ctxErr else some StopResult.nil
    else if ctxDone then some StopResult.ctxErr
    else none)

/-! ## Publisher (`publisher.go`) -/

/-- `amqp.Persistent`. -/
def Persistent : Nat := 2

/-- How `PublishWithCorrelationID` ends. -/
inductive PublishResult where
  | nil
  | marshalFailed
  | publishFailed
  deriving DecidableEq

/-- `PublishWithCorrelationID` (publisher.go 37-70): the calls of `client.Send`
made and the error returned.  `body` is the result of `json.Marshal` on the
message (`none` when it fails), `messageId` the string of the fresh UUID,
`now` the time read, `sendOk` the answer of `Send`. -/
def PublishWithCorrelationID (exchange routingKey correlationID : String)
    (body : Option (List Nat)) (messageId : String) (now : Int) (sendOk : Bool) :
    List (String × String × Publishing) × PublishResult :=
  match body with
  | none => ([], PublishResult.marshalFailed)
  | some bytes =>
    let publishing : Publishing :=
      { Headers := []
        ContentType := "application/json"
        CorrelationId := correlationID
        MessageId := messageId
        Timestamp := now
        DeliveryMode := Persistent
        Body := bytes }
    ([(exchange, routingKey, publishing)],
      if sendOk then PublishResult.nil else PublishResult.publishFailed)

/-- `Publish` (publisher.go 31-34): `correlationID` is the string of a fresh
UUID. -/
def Publish (exchange routingKey : String) (correlationID : String)
    (body : Option (List Nat)) (messageId : String) (now : Int) (sendOk : Bool) :
    List (String × String × Publishing) × PublishResult :=
  PublishWithCorrelationID exchange routingKey correlationID body messageId now sendOk


/-! ## Concrete configurations -/

/-- A configuration that leaves prefetch count, max retries and worker count
unset. -/
def unsetConfig : ConsumerConfig :=
  { Handler := 1, Queue := "ride_requests", ConsumerTag := "t",
    PrefetchCount := 0, MaxRetries := 0, Workers := 0 }

/-- A configuration with negative prefetch count, max retries and worker
count. -/
def negativeConfig : ConsumerConfig :=
  { Handler := 1, Queue := "ride_requests", ConsumerTag := "t",
    PrefetchCount := -1, MaxRetries := -1, Workers := -2 }

end Mq

namespace Server

/-! ## The WebSocket manager (`pkg/server`)

Calls are modelled as functions on the state of the `Manager`.  A call that
has to wait for the mutex `m.mu`, for a `sync.Once` in use or for the
goroutines of `m.wg`, or that panics, ends as such, with the state reached so far.  The mutex is held across a call
only inside the loop of `Shutdown`; everywhere else it is taken and released
within one statement. -/

/-- State of a `sync.Once`: not used yet, its function running, its function
returned. -/
inductive Once where
  | fresh
  | running
  | done
  deriving DecidableEq

/-- How a call ends: it returns, it waits (for `m.mu`, for a `Once` whose
function is running, or for the goroutines of `m.wg`), or it panics. -/
inductive Outcome (α : Type) where
  | returned (a : α)
  | blocked (a : α)
  | panicked (a : α)
  deriving DecidableEq

/-- The state a call ends in. -/
def Outcome.state {α : Type} : Outcome α → α
  | Outcome.returned a => a
  | Outcome.blocked a => a
  | Outcome.panicked a => a

/-- The next statement runs when the one before has returned. -/
def Outcome.andThen {α : Type} (o : Outcome α) (f : α → Outcome α) : Outcome α :=
  match o with
  | Outcome.returned a => f a
  | Outcome.blocked a => Outcome.blocked a
  | Outcome.panicked a => Outcome.panicked a

/-- A session (`Client` of client.go): identity, socket, the two channels and
the close guard.  `receiverWaiting` tells that the write pump waits in its
`select` for a message on `outbound`, `delivered` lists the payloads handed to
it, `socketCloses` counts the calls of `conn.Close()`. -/
structure Client where
  id : Nat
  conn : Nat
  inboundClosed : Bool
  outboundClosed : Bool
  receiverWaiting : Bool
  delivered : List (List Nat)
  socketCloses : Nat
  closeOnce : Once
  deriving DecidableEq

/-- The `Manager`: `sessions` holds every `Client` created (a pointer is a
position in it), `clients` is the registry from identity to pointer, `muHeld`
tells that `m.mu` is locked, `tasks` is the counter of `m.wg`: the goroutines
added to it that have not ended. -/
structure Manager where
  sessions : List Client
  clients : List (Nat × Nat)
  muHeld : Bool
  cancelled : Bool
  readClosed : Bool
  shutdownOnce : Once
  tasks : Nat
  deriving DecidableEq

/-- Map read `m.clients[id]`. -/
def Registry.lookup : List (Nat × Nat) → Nat → Option Nat
  | [], _ => none
  | (k, p) :: rest, id => if k = id then some p else Registry.lookup rest id

/-- Map write `m.clients[id] = c`. -/
def Registry.assign : List (Nat × Nat) → Nat → Nat → List (Nat × Nat)
  | [], id, ptr => [(id, ptr)]
  | (k, p) :: rest, id, ptr =>
    if k = id then (id, ptr) :: rest else (k, p) :: Registry.assign rest id ptr

/-- Map delete `delete(m.clients, id)`. -/
def Registry.erase : List (Nat × Nat) → Nat → List (Nat × Nat)
  | [], _ => []
  | (k, p) :: rest, id => if k = id then Registry.erase rest id else (k, p) :: Registry.erase rest id

/-- `NewManager`. -/
def NewManager : Manager :=
  { sessions := [], clients := [], muHeld := false, cancelled := false, readClosed := false,
    shutdownOnce := Once.fresh, tasks := 0 }

/-- `NewClient`: both channels open, the close guard unused. -/
def NewClient (id conn : Nat) : Client :=
  { id := id, conn := conn, inboundClosed := false, outboundClosed := false,
    receiverWaiting := false, delivered := [], socketCloses := 0, closeOnce := Once.fresh }

/-- Write to the session behind a pointer. -/
def Manager.setSession (m : Manager) (ptr : Nat) (c : Client) : Manager :=
  { m with sessions := m.sessions.set ptr c }

/-- `addClient` (ws_manager.go 44-48). -/
def addClient (m : Manager) (id ptr : Nat) : Outcome Manager :=
  if m.muHeld then Outcome.blocked m
  else Outcome.returned { m with clients := Registry.assign m.clients id ptr }

/-- `removeClient` (ws_manager.go 50-54). -/
def removeClient (m : Manager) (id : Nat) : Outcome Manager :=
  if m.muHeld then Outcome.blocked m
  else Outcome.returned { m with clients := Registry.erase m.clients id }

/-- The goroutines `ServeWS` starts for a session. -/
inductive Task where
  | readMessages
  | writeMessages
  | forward
  deriving DecidableEq

/-- What `ServeWS` does towards the caller and the scheduler, in program order:
`upgraded` is a call of `upgrader.Upgrade` that succeeded, by which the
handshake has been answered and the connection taken over from the HTTP
server. -/
inductive ServeEffect where
  | upgraded (conn : Nat)
  | writeHeader (status : Nat)
  | write (body : String)
  | go (task : Task) (session : Nat)
  deriving DecidableEq

/-- `ServeWS` (ws_manager.go 56-92).  `upgrade` is the connection `Upgrade`
yields, if it succeeds; `identity` is the user id of the claims found in the
request context, if any. -/
def ServeWS (m : Manager) (upgrade identity : Option Nat) : List ServeEffect × Outcome Manager :=
  match upgrade with
  | none =>
    ([ServeEffect.writeHeader 500, ServeEffect.write "failed to upgrade connection"],
      Outcome.returned m)
  | some conn =>
    match identity with
    | none =>
      ([ServeEffect.upgraded conn, ServeEffect.writeHeader 401,
        ServeEffect.write "unauthorized"], Outcome.returned m)
    | some id =>
      let ptr := m.sessions.length
      let m1 : Manager := { m with sessions := m.sessions ++ [NewClient id conn] }
      match addClient m1 id ptr with
      | Outcome.returned m2 =>
        ([ServeEffect.upgraded conn, ServeEffect.go Task.readMessages ptr,
          ServeEffect.go Task.writeMessages ptr, ServeEffect.go Task.forward ptr],
          Outcome.returned { m2 with tasks := m2.tasks + 3 })
      | Outcome.blocked m2 => ([ServeEffect.upgraded conn], Outcome.blocked m2)
      | Outcome.panicked m2 => ([ServeEffect.upgraded conn], Outcome.panicked m2)

/-- A message on the outbound routing channel. -/
structure ResponseWs where
  Payload : List Nat
  ConsumerID : Nat
  deriving DecidableEq

/-- The router of `StartWrite` handling one message taken from `m.write`
(ws_manager.go 120-135): look the target up under the mutex, then try to send
on its `outbound` without waiting.  `outbound` has no buffer, so the send goes
through exactly when the write pump is waiting for it; a send on a closed
channel panics. -/
def StartWrite.route (m : Manager) (message : ResponseWs) : Outcome Manager :=
  if m.muHeld then Outcome.blocked m
  else
    match Registry.lookup m.clients message.ConsumerID with
    | none => Outcome.returned m
    | some ptr =>
      match m.sessions[ptr]? with
      | none => Outcome.returned m
      | some c =>
        if c.outboundClosed then Outcome.panicked m
        else if c.receiverWaiting then
          Outcome.returned (m.setSession ptr
            { c with receiverWaiting := false, delivered := c.delivered ++ [message.Payload] })
        else Outcome.returned m

/-- Entering `closeOnce.Do` for the first time (client.go 95). -/
def enterClose (m : Manager) (ptr : Nat) : Manager :=
  match m.sessions[ptr]? with
  | none => m
  | some c => m.setSession ptr { c with closeOnce := Once.running }

/-- `close(c.outbound)` (client.go 96). -/
def closeOutbound (m : Manager) (ptr : Nat) : Outcome Manager :=
  match m.sessions[ptr]? with
  | none => Outcome.returned m
  | some c =>
    if c.outboundClosed then Outcome.panicked m
    else Outcome.returned (m.setSession ptr { c with outboundClosed := true })

/-- `close(c.inbound)` (client.go 97). -/
def closeInbound (m : Manager) (ptr : Nat) : Outcome Manager :=
  match m.sessions[ptr]? with
  | none => Outcome.returned m
  | some c =>
    if c.inboundClosed then Outcome.panicked m
    else Outcome.returned (m.setSession ptr { c with inboundClosed := true })

/-- `c.conn.Close()` (client.go 98). -/
def closeSocket (m : Manager) (ptr : Nat) : Outcome Manager :=
  match m.sessions[ptr]? with
  | none => Outcome.returned m
  | some c => Outcome.returned (m.setSession ptr { c with socketCloses := c.socketCloses + 1 })

/-- Leaving `closeOnce.Do` after its function has returned. -/
def leaveClose (m : Manager) (ptr : Nat) : Outcome Manager :=
  match m.sessions[ptr]? with
  | none => Outcome.returned m
  | some c => Outcome.returned (m.setSession ptr { c with closeOnce := Once.done })

/-- `Client.close` (client.go 94-101). -/
def Client.close (m : Manager) (ptr : Nat) : Outcome Manager :=
  match m.sessions[ptr]? with
  | none => Outcome.returned m
  | some c =>
    match c.closeOnce with
    | Once.done => Outcome.returned m
    | Once.running => Outcome.blocked m
    | Once.fresh =>
      ((((closeOutbound (enterClose m ptr) ptr).andThen
        (fun m1 => closeInbound m1 ptr)).andThen
        (fun m2 => closeSocket m2 ptr)).andThen
        (fun m3 => removeClient m3 c.id)).andThen
        (fun m4 => leaveClose m4 ptr)

/-- The loop of `Shutdown` over the registry (ws_manager.go 156-158), in the
order of the list; an entry deleted in the meantime is not visited. -/
def closeAll (m : Manager) : List (Nat × Nat) → Outcome Manager
  | [] => Outcome.returned m
  | (id, ptr) :: rest =>
    if Registry.lookup m.clients id = some ptr then
      match Client.close m ptr with
      | Outcome.returned m1 => closeAll m1 rest
      | Outcome.blocked m1 => Outcome.blocked m1
      | Outcome.panicked m1 => Outcome.panicked m1
    else closeAll m rest

/-- A goroutine added to `m.wg` ends: its deferred `m.wg.Done()`
(ws_manager.go 76, 80, 84, 115). -/
def wgDone (m : Manager) : Manager :=
  { m with tasks := m.tasks - 1 }

/-- `Shutdown` (ws_manager.go 149-165).  `m.cancel` is never `nil` (it is set by
`NewManager` and by `StartWrite`).  `m.wg.Wait()` returns when the counter of
`m.wg` is zero; while a goroutine added to it has not ended (a forwarder
waiting to send on `m.read`, for one) the call waits there, the mutex
released. -/
def Shutdown (m : Manager) : Outcome Manager :=
  match m.shutdownOnce with
  | Once.done => Outcome.returned m
  | Once.running => Outcome.blocked m
  | Once.fresh =>
    let m1 : Manager := { m with shutdownOnce := Once.running, cancelled := true }
    if m1.muHeld then Outcome.blocked m1
    else
      match closeAll { m1 with muHeld := true } m1.clients with
      | Outcome.returned m2 =>
        if m2.tasks ≠ 0 then Outcome.blocked { m2 with muHeld := false }
        else if m2.readClosed then Outcome.panicked { m2 with muHeld := false }
        else
          Outcome.returned
            { m2 with muHeld := false, readClosed := true, shutdownOnce := Once.done }
      | Outcome.blocked m2 => Outcome.blocked m2
      | Outcome.panicked m2 => Outcome.panicked m2

/-- The state after `n` calls of `Shutdown`, one after the other. -/
def shutdownTimes : Nat → Manager → Manager
  | 0, m => m
  | n + 1, m => shutdownTimes n (Shutdown m).state

/-- The state after the listed calls of `close` on one session. -/
def closeTimes : Nat → Manager → Nat → Manager
  | 0, m, _ => m
  | n + 1, m, ptr => closeTimes n (Client.close m ptr).state ptr

/-! ## Concrete inputs -/

/-- A manager with one session, of user 42 on connection 5, as `ServeWS`
leaves it. -/
def oneSession : Manager :=
  (ServeWS NewManager (some 5) (some 42)).2.state

/-- A manager with sessions of users 42 and 43, whose write pumps wait for a
message. -/
def twoWaiting : Manager :=
  { (ServeWS oneSession (some 6) (some 43)).2.state with
    sessions := [{ NewClient 42 5 with receiverWaiting := true },
                 { NewClient 43 6 with receiverWaiting := true }] }

/-- The session of `oneSession` has entered `close` from one of its pumps and
has closed `outbound`; it is not yet taken out of the registry. -/
def closingSession : Manager :=
  (closeOutbound (enterClose oneSession 0) 0).state

/-- The sessions that are live: created by `ServeWS` and `close` not yet
entered, as pointers. -/
def liveSessions (m : Manager) : List Nat :=
  (List.range m.sessions.length).filter (fun ptr =>
    match m.sessions[ptr]? with
    | some c => decide (c.closeOnce = Once.fresh)
    | none => false)

/-- The sessions the registry holds, as pointers. -/
def registrySessions (m : Manager) : List Nat :=
  m.clients.map Prod.snd

/-- Two sessions of user 42, on connections 5 and 6, as two calls of `ServeWS`
leave them. -/
def sameIdentityTwice : Manager :=
  (ServeWS oneSession (some 6) (some 42)).2.state

/-- Sessions of users 42 and 43, as two calls of `ServeWS` leave them. -/
def twoIdentities : Manager :=
  (ServeWS oneSession (some 6) (some 43)).2.state

end Server

namespace InitMq

/-! ## Topology bootstrap (`cmd/initMq/main.go`) -/

/-- A call made by `initializeTopology` on the client: `CreateExchange(name, kind,
durable, autoDelete)`, `CreateQueue` / `CreateQueueWithArgs(name, durable,
autoDelete, args)` (`args` absent for `CreateQueue`), `CreateBinding(queue,
key, exchange)`. -/
inductive TopologyOp where
  | exchange (name kind : String) (durable autoDelete : Bool)
  | queue (name : String) (durable autoDelete : Bool) (args : Option Mq.Table)
  | binding (queue key exchange : String)
  deriving DecidableEq

/-- The table `dlxArgs` (main.go 75-77). -/
def dlxArgs : Mq.Table :=
  [("x-dead-letter-exchange", Mq.Value.str "dlx")]

/-- The calls of `initializeTopology` in program order (main.go 53-159), each
with the message of the error returned when it fails. -/
def topologySteps : List (TopologyOp × String) :=
  [(TopologyOp.exchange "ride_topic" "topic" true false,
      "failed to create ride_topic exchange"),
   (TopologyOp.exchange "driver_topic" "topic" true false,
      "failed to create driver_topic exchange"),
   (TopologyOp.exchange "location_fanout" "fanout" true false,
      "failed to create location_fanout exchange"),
   (TopologyOp.exchange "dlx" "topic" true false, "failed to create dlx exchange"),
   (TopologyOp.queue "ride_requests" true false (some dlxArgs),
      "failed to create ride_requests queue"),
   (TopologyOp.queue "ride_status" true false (some dlxArgs),
      "failed to create ride_status queue"),
   (TopologyOp.queue "driver_matching" true false (some dlxArgs),
      "failed to create driver_matching queue"),
   (TopologyOp.queue "driver_responses" true false (some dlxArgs),
      "failed to create driver_responses queue"),
   (TopologyOp.queue "driver_status" true false (some dlxArgs),
      "failed to create driver_status queue"),
   (TopologyOp.queue "location_updates_ride" true false (some dlxArgs),
      "failed to create location_updates_ride queue"),
   (TopologyOp.queue "location_updates_admin" true false (some dlxArgs),
      "failed to create location_updates_admin queue"),
   (TopologyOp.queue "dead_letters" true false none, "failed to create dead_letters queue"),
   (TopologyOp.binding "ride_requests" "ride.request.*" "ride_topic",
      "failed to bind ride_requests"),
   (TopologyOp.binding "ride_status" "ride.status.*" "ride_topic",
      "failed to bind ride_status"),
   (TopologyOp.binding "driver_matching" "ride.request.*" "ride_topic",
      "failed to bind driver_matching"),
   (TopologyOp.binding "driver_responses" "driver.response.*" "driver_topic",
      "failed to bind driver_responses"),
   (TopologyOp.binding "driver_status" "driver.status.*" "driver_topic",
      "failed to bind driver_status"),
   (TopologyOp.binding "location_updates_ride" "" "location_fanout",
      "failed to bind location_updates_ride"),
   (TopologyOp.binding "location_updates_admin" "" "location_fanout",
      "failed to bind location_updates_admin"),
   (TopologyOp.binding "dead_letters" "#" "dlx", "failed to bind dead_letters")]

/-- Running the calls one after the other: the first that fails ends the run
with its error.  `ok i` is the answer of the broker to call number `i`. -/
def runSteps (ok : Nat → Bool) : Nat → List (TopologyOp × String) → List TopologyOp × Option String
  | _, [] => ([], none)
  | i, (op, msg) :: rest =>
    if ok i then (op :: (runSteps ok (i + 1) rest).1, (runSteps ok (i + 1) rest).2)
    else ([op], some msg)

/-- `initializeTopology`: the calls made and the error returned. -/
def initializeTopology (ok : Nat → Bool) : List TopologyOp × Option String :=
  runSteps ok 0 topologySteps

/-- The exchange table of the specification: name and type, all durable. -/
def specExchanges : List (String × String) :=
  [("ride_topic", "topic"), ("driver_topic", "topic"), ("location_fanout", "fanout"),
   ("dlx", "topic")]

/-- The queue table of the specification: queue, exchange bound to, routing key
(empty for the fanout exchange), dead-letter exchange. -/
def specQueues : List (String × String × String × Option String) :=
  [("ride_requests", "ride_topic", "ride.request.*", some "dlx"),
   ("ride_status", "ride_topic", "ride.status.*", some "dlx"),
   ("driver_matching", "ride_topic", "ride.request.*", some "dlx"),
   ("driver_responses", "driver_topic", "driver.response.*", some "dlx"),
   ("driver_status", "driver_topic", "driver.status.*", some "dlx"),
   ("location_updates_ride", "location_fanout", "", some "dlx"),
   ("location_updates_admin", "location_fanout", "", some "dlx"),
   ("dead_letters", "dlx", "#", none)]

/-- The exchanges declared by a run, as name and type, the durable ones that
are not auto-deleted. -/
def declaredExchanges : List TopologyOp → List (String × String)
  | [] => []
  | TopologyOp.exchange name kind true false :: rest => (name, kind) :: declaredExchanges rest
  | _ :: rest => declaredExchanges rest

/-- The dead-letter exchange named by the arguments of a queue. -/
def deadLetterOf (args : Option Mq.Table) : Option String :=
  match args with
  | none => none
  | some t =>
    match Mq.Table.lookup t "x-dead-letter-exchange" with
    | some (Mq.Value.str x) => some x
    | _ => none

/-- The queues declared by a run, with their dead-letter exchange, the durable
ones that are not auto-deleted. -/
def declaredQueues : List TopologyOp → List (String × Option String)
  | [] => []
  | TopologyOp.queue name true false args :: rest =>
    (name, deadLetterOf args) :: declaredQueues rest
  | _ :: rest => declaredQueues rest

/-- The bindings created by a run: queue, exchange, key. -/
def createdBindings : List TopologyOp → List (String × String × String)
  | [] => []
  | TopologyOp.binding queue key exchange :: rest =>
    (queue, exchange, key) :: createdBindings rest
  | _ :: rest => createdBindings rest

/-- Every call of a run, durable or not. -/
def countOps (ops : List TopologyOp) : Nat × Nat × Nat :=
  (List.length (List.filter (fun op => match op with
      | TopologyOp.exchange _ _ _ _ => true | _ => false) ops),
   List.length (List.filter (fun op => match op with
      | TopologyOp.queue _ _ _ _ => true | _ => false) ops),
   List.length (List.filter (fun op => match op with
      | TopologyOp.binding _ _ _ => true | _ => false) ops))

/-- The call declares the queue of this name. -/
def declaresQueue (queue : String) : TopologyOp → Bool
  | TopologyOp.queue name _ _ _ => decide (name = queue)
  | _ => false

/-- The call declares the exchange of this name. -/
def declaresExchange (exchange : String) : TopologyOp → Bool
  | TopologyOp.exchange name _ _ _ => decide (name = exchange)
  | _ => false

/-- One of the first `i` calls of a run satisfies `p`. -/
def earlier (ops : List TopologyOp) (i : Nat) (p : TopologyOp → Bool) : Prop :=
  ∃ j, j < i ∧ Option.map p ops[j]? = some true

instance (ops : List TopologyOp) (i : Nat) (p : TopologyOp → Bool) :
    Decidable (earlier ops i p) := by
  unfold earlier
  infer_instance

/-- In a run, the call number `i`, if it creates a binding, comes after the
declaration of the queue and of the exchange it binds. -/
def boundAfterDeclared (ops : List TopologyOp) (i : Nat) : Prop :=
  match ops[i]? with
  | some (TopologyOp.binding queue _ exchange) =>
    earlier ops i (declaresQueue queue) ∧ earlier ops i (declaresExchange exchange)
  | _ => True

instance (ops : List TopologyOp) (i : Nat) : Decidable (boundAfterDeclared ops i) := by
  unfold boundAfterDeclared
  split <;> infer_instance

end InitMq

namespace Ride

/-! ## Ride requests (`internal/services/ride/dto.go`) -/

/-- A `float64`: not-a-number, an infinity, or a number, kept as the rational
it is.  Both zeros are the number 0. -/
inductive F64 where
  | nan
  | negInf
  | num (q : ℚ)
  | posInf
  deriving DecidableEq

/-- Go `x < y` on `float64`. -/
def F64.lt : F64 → F64 → Bool
  | F64.nan, _ => false
  | _, F64.nan => false
  | F64.negInf, F64.negInf => false
  | F64.negInf, _ => true
  | _, F64.negInf => false
  | F64.posInf, _ => false
  | F64.num _, F64.posInf => true
  | F64.num a, F64.num b => decide (a < b)

/-- Go `x > y` on `float64`. -/
def F64.gt (x y : F64) : Bool :=
  F64.lt y x

/-- Go `x == y` on `float64`. -/
def F64.eq : F64 → F64 → Bool
  | F64.nan, _ => false
  | _, F64.nan => false
  | F64.negInf, F64.negInf => true
  | F64.posInf, F64.posInf => true
  | F64.num a, F64.num b => decide (a = b)
  | _, _ => false

/-- The fields of `CreateRideRequest` that `Validate` reads. -/
structure CreateRideRequest where
  PickupLat : F64
  PickupLng : F64
  PickupAddress : String
  DestLat : F64
  DestLng : F64
  DestAddress : String
  VehicleType : String
  deriving DecidableEq

/-- The map `validTypes` read at a key (dto.go 24-29): absent keys read `false`. -/
def validTypes (vehicleType : String) : Bool :=
  vehicleType = "ECONOMY" || vehicleType = "PREMIUM" || vehicleType = "XL"

/-- `CreateRideRequest.Validate` (dto.go 23-58): the message of the error
returned, `none` for `nil`. -/
def CreateRideRequest.Validate (r : CreateRideRequest) : Option String :=
  if !validTypes r.VehicleType then
    some "invalid vehicle_type: must be ECONOMY, PREMIUM, or XL"
  else if F64.lt r.PickupLat (F64.num (-90)) || F64.gt r.PickupLat (F64.num 90) then
    some "pickup_latitude must be between -90 and 90"
  else if F64.lt r.PickupLng (F64.num (-180)) || F64.gt r.PickupLng (F64.num 180) then
    some "pickup_longitude must be between -180 and 180"
  else if F64.lt r.DestLat (F64.num (-90)) || F64.gt r.DestLat (F64.num 90) then
    some "destination_latitude must be between -90 and 90"
  else if F64.lt r.DestLng (F64.num (-180)) || F64.gt r.DestLng (F64.num 180) then
    some "destination_longitude must be between -180 and 180"
  else if r.PickupAddress = "" then
    some "pickup_address is required"
  else if r.DestAddress = "" then
    some "destination_address is required"
  else if F64.eq r.PickupLat r.DestLat && F64.eq r.PickupLng r.DestLng then
    some "pickup and destination must be different"
  else none

/-- A coordinate lies in the interval from `lo` to `hi`. -/
def F64.within (x : F64) (lo hi : ℚ) : Prop :=
  match x with
  | F64.num q => lo ≤ q ∧ q ≤ hi
  | _ => False

instance (x : F64) (lo hi : ℚ) : Decidable (F64.within x lo hi) := by
  unfold F64.within
  cases x <;> infer_instance

/-- A coordinate is a number. -/
def F64.isNumber : F64 → Bool
  | F64.num _ => true
  | _ => false

/-- The first failing check of a list of checks, each given with whether it
passes and with its error. -/
def firstFailing : List (Bool × String) → Option String
  | [] => none
  | (passes, err) :: rest => if passes then firstFailing rest else some err

/-- The validation in the words of the specification: vehicle type among the
three names, latitudes within -90 .. 90, longitudes within -180 .. 180,
addresses not empty, pickup point different from the destination, checked in
this order. -/
def validateSpec (r : CreateRideRequest) : Option String :=
  firstFailing
    [(decide (r.VehicleType ∈ ["ECONOMY", "PREMIUM", "XL"]),
        "invalid vehicle_type: must be ECONOMY, PREMIUM, or XL"),
     (decide (r.PickupLat.within (-90) 90), "pickup_latitude must be between -90 and 90"),
     (decide (r.PickupLng.within (-180) 180),
        "pickup_longitude must be between -180 and 180"),
     (decide (r.DestLat.within (-90) 90), "destination_latitude must be between -90 and 90"),
     (decide (r.DestLng.within (-180) 180),
        "destination_longitude must be between -180 and 180"),
     (decide (r.PickupAddress ≠ ""), "pickup_address is required"),
     (decide (r.DestAddress ≠ ""), "destination_address is required"),
     (decide (¬ (r.PickupLat = r.DestLat ∧ r.PickupLng = r.DestLng)),
        "pickup and destination must be different")]

/-- A request as in the tests of the handler. -/
def almatyRequest : CreateRideRequest :=
  { PickupLat := F64.num 43, PickupLng := F64.num 76, PickupAddress := "123 Pickup St",
    DestLat := F64.num 44, DestLng := F64.num 77, DestAddress := "456 Destination Ave",
    VehicleType := "ECONOMY" }

/-- The same request with a pickup latitude that is not a number. -/
def nanRequest : CreateRideRequest :=
  { almatyRequest with PickupLat := F64.nan }

/-! ## Fares (`internal/services/ride/fare.go`)

The arithmetic of `float64` is IEEE 754 binary64 with rounding to nearest, ties
to even: a result is the exact rational result rounded to 53 significant
binary digits, with exponents of the last place not below -1074 and overflow
to an infinity from 2^1024 on.  Each operation of the source is rounded by
itself. -/

end Ride

namespace Uuid

/-! ## UUIDs (`pkg/uuid/uuid.go`)

A Go string is the list of its bytes; a `UUID` (`[16]byte`) is a list of bytes
of length 16. -/

/-- A `UUID`: its bytes; the type of the source fixes their number at 16. -/
abbrev UUID := List (Fin 256)

/-- The byte of `-`. -/
def dash : Nat := 45

/-- One digit of the verb `%x`: `0` .. `9` are the bytes 48 .. 57, `a` .. `f`
the bytes 97 .. 102. -/
def hexDigit (n : Nat) : Nat :=
  if n < 10 then 48 + n else 87 + n

/-- The verb `%x` on a byte slice: two digits per byte, high digit first. -/
def hex : List (Fin 256) → List Nat
  | [] => []
  | b :: rest => hexDigit (b.val / 16) :: hexDigit (b.val % 16) :: hex rest

/-- The slice `u[lo:hi]`. -/
def slice (u : UUID) (lo hi : Nat) : List (Fin 256) :=
  (u.drop lo).take (hi - lo)

/-- `UUID.String` (uuid.go 32-34). -/
def UUID.String (u : UUID) : List Nat :=
  hex (slice u 0 4) ++ dash :: (hex (slice u 4 6) ++ dash :: (hex (slice u 6 8) ++
    dash :: (hex (slice u 8 10) ++ dash :: hex (u.drop 10))))

/-- The errors of `FromString`: wrong length after removing the dashes, with
the length found, and invalid hex, with the position. -/
inductive FromStringError where
  | length (got : Nat)
  | hex (position : Nat)
  deriving DecidableEq

/-- The value of a base-16 digit as `strconv.ParseUint` reads it: either case. -/
def hexValue (c : Nat) : Option Nat :=
  if 48 ≤ c ∧ c ≤ 57 then some (c - 48)
  else if 97 ≤ c ∧ c ≤ 102 then some (c - 97 + 10)
  else if 65 ≤ c ∧ c ≤ 70 then some (c - 65 + 10)
  else none

/-- `strconv.ParseUint(s, 16, 8)` on a string of two bytes: two digits always
fit 8 bits. -/
def ParseUint (c1 c2 : Nat) : Option Nat :=
  match hexValue c1, hexValue c2 with
  | some a, some b => some (16 * a + b)
  | _, _ => none

/-- The loop of `FromString` (uuid.go 46-52) with `n` rounds to go, at round
`i`, on what is left of the string from byte `2 * i` on: the first pair that
does not parse ends it with the error of its position. -/
def parseBytes : Nat → Nat → List Nat → Except FromStringError (List (Fin 256))
  | 0, _, _ => Except.ok []
  | n + 1, i, c1 :: c2 :: rest =>
    match ParseUint c1 c2 with
    | none => Except.error (FromStringError.hex (i * 2))
    | some v =>
      match parseBytes n (i + 1) rest with
      | Except.ok bytes => Except.ok (Fin.ofNat v :: bytes)
      | Except.error e => Except.error e
  | _ + 1, i, _ => Except.error (FromStringError.hex (i * 2))

/-- `FromString` (uuid.go 40-55). -/
def FromString (s : List Nat) : Except FromStringError UUID :=
  if (s.filter (fun c => c != dash)).length ≠ 32 then
    Except.error (FromStringError.length (s.filter (fun c => c != dash)).length)
  else parseBytes 16 0 (s.filter (fun c => c != dash))

/-- The errors of `Validate`. -/
inductive ValidateError where
  | ErrLength
  | ErrNotValidFormat
  deriving DecidableEq

/-- The class `[0-9a-f]`. -/
def isLowerHex (c : Nat) : Bool :=
  (decide (48 ≤ c) && decide (c ≤ 57)) || (decide (97 ≤ c) && decide (c ≤ 102))

/-- The piece `[0-9a-f]{n}` of the pattern, at the start of a string: what
follows the match. -/
def matchHex : Nat → List Nat → Option (List Nat)
  | 0, s => some s
  | _ + 1, [] => none
  | n + 1, c :: s => if isLowerHex c then matchHex n s else none

/-- The piece `-` of the pattern. -/
def matchDash : List Nat → Option (List Nat)
  | [] => none
  | c :: s => if c = dash then some s else none

/-- The pattern of `Validate` matches the whole string (it is anchored at both
ends, and each of its pieces has a fixed length). -/
def patternMatches (s : List Nat) : Bool :=
  ((((((((matchHex 8 s).bind matchDash).bind (matchHex 4)).bind matchDash).bind
    (matchHex 4)).bind matchDash).bind (matchHex 4)).bind matchDash).bind (matchHex 12)
    = some []

/-- `Validate` (uuid.go 57-66): the error returned, `none` for `nil`. -/
def Validate (s : List Nat) : Option ValidateError :=
  if s.length ≠ 36 then some ValidateError.ErrLength
  else if !patternMatches s then some ValidateError.ErrNotValidFormat
  else none

/-- The bytes 0x00, 0x11, .. 0xff in turn. -/
def sampleUuid : UUID :=
  [0, 17, 34, 51, 68, 85, 102, 119, 136, 153, 170, 187, 204, 221, 238, 255]

end Uuid

namespace Mq

/-! # Properties -/

/-! ## Arithmetic of the conversions -/

theorem toInt32_of_range (x : Int) (h1 : -2147483648 ≤ x) (h2 : x < 2147483648) :
    toInt32 x = x := by
  unfold toInt32; omega

theorem toInt32_lt (x : Int) : toInt32 x < 2147483648 := by
  unfold toInt32; omega

theorem toInt32_ge (x : Int) : -2147483648 ≤ toInt32 x := by
  unfold toInt32; omega

theorem toInt32_succ (x : Int) : toInt32 (toInt32 x + 1) = toInt32 (x + 1) := by
  unfold toInt32; omega

theorem toInt32_natCast_le (n : Nat) : toInt32 (n : Int) ≤ (n : Int) := by
  unfold toInt32; omega

/-! ## Header tables -/

theorem Table.lookup_assign_self (t : Table) (k : String) (v : Value) :
    Table.lookup (Table.assign t k v) k = some v := by
  induction t with
  | nil => simp [Table.assign, Table.lookup]
  | cons kv rest ih =>
    obtain ⟨k', v'⟩ := kv
    by_cases hk : k' = k
    · simp [Table.assign, Table.lookup, hk]
    · simp [Table.assign, Table.lookup, hk, ih]

theorem Table.lookup_assign_ne (t : Table) (k k' : String) (v : Value) (h : k ≠ k') :
    Table.lookup (Table.assign t k v) k' = Table.lookup t k' := by
  induction t with
  | nil => simp [Table.assign, Table.lookup, h]
  | cons kv rest ih =>
    obtain ⟨k0, v0⟩ := kv
    by_cases hk : k0 = k
    · subst hk
      simp [Table.assign, Table.lookup, h]
    · simp [Table.assign, Table.lookup, hk, ih]

theorem Table.lookup_eq_none_of_not_mem (t : Table) (k : String)
    (h : k ∉ Table.keys t) : Table.lookup t k = none := by
  induction t with
  | nil => rfl
  | cons kv rest ih =>
    obtain ⟨k0, v0⟩ := kv
    simp only [Table.keys, List.map_cons, List.mem_cons, not_or] at h
    have hne : ¬ k0 = k := fun e => h.1 e.symm
    simp only [Table.lookup, hne, if_false]
    exact ih h.2

theorem Table.lookup_copyInto (src dst : Table) (k : String) (h : Table.WF src) :
    Table.lookup (Table.copyInto src dst) k =
      (Table.lookup src k).orElse (fun _ => Table.lookup dst k) := by
  induction src generalizing dst with
  | nil => simp [Table.copyInto, Table.lookup]
  | cons kv rest ih =>
    obtain ⟨k0, v0⟩ := kv
    have hnd : k0 ∉ Table.keys rest ∧ Table.WF rest := by
      simpa [Table.WF, Table.keys] using h
    have hrest := ih (Table.assign dst k0 v0) hnd.2
    simp only [Table.copyInto, List.foldl_cons] at hrest ⊢
    rw [hrest]
    by_cases hk : k0 = k
    · subst hk
      simp [Table.lookup, Table.lookup_eq_none_of_not_mem rest k0 hnd.1,
        Table.lookup_assign_self]
    · simp [Table.lookup, hk, Table.lookup_assign_ne dst k0 k v0 hk]

/-! ## Traces -/

theorem republished_append (a b : List Effect) :
    republished (a ++ b) = republished a ++ republished b := by
  induction a with
  | nil => rfl
  | cons e rest ih =>
    cases e with
    | send x k p ok => cases ok <;> simp [republished, ih]
    | sleep ms => simp [republished, ih]
    | ack t m => simp [republished, ih]
    | nack t m r => simp [republished, ih]

theorem acks_append (a b : List Effect) : acks (a ++ b) = acks a ++ acks b := by
  induction a with
  | nil => rfl
  | cons e rest ih => cases e <;> simp [acks, ih]

theorem nacks_append (a b : List Effect) : nacks (a ++ b) = nacks a ++ nacks b := by
  induction a with
  | nil => rfl
  | cons e rest ih => cases e <;> simp [nacks, ih]

theorem sendCalls_append (a b : List Effect) :
    sendCalls (a ++ b) = sendCalls a ++ sendCalls b := by
  induction a with
  | nil => rfl
  | cons e rest ih => cases e <;> simp [sendCalls, ih]

/-! ## One delivery -/

theorem retryHeader_republishPublishing (d : Delivery) (n : Int) :
    retryHeader (republishPublishing d n) = some (Value.int32 (toInt32 n)) := by
  simp only [retryHeader, republishPublishing, republishHeaders]
  exact Table.lookup_assign_self _ _ _

theorem processMessage_retry (c : MessageConsumer) (sendOk : Bool) (d : Delivery)
    (h : retryCountOf d < c.maxRetries) :
    processMessage c false sendOk d =
      [Effect.sleep (republishDelayMs (retryCountOf d + 1)),
       Effect.send "" c.queue (republishPublishing d (retryCountOf d + 1)) sendOk,
       if sendOk then Effect.ack d.DeliveryTag false
       else Effect.nack d.DeliveryTag false false] := by
  cases sendOk <;> simp [processMessage, republishWithRetry, h]

theorem processMessage_exhausted (c : MessageConsumer) (sendOk : Bool) (d : Delivery)
    (h : c.maxRetries ≤ retryCountOf d) :
    processMessage c false sendOk d = [Effect.nack d.DeliveryTag false false] := by
  have h' : ¬ retryCountOf d < c.maxRetries := not_lt.mpr h
  simp [processMessage, h']

theorem processMessage_success (c : MessageConsumer) (sendOk : Bool) (d : Delivery) :
    processMessage c true sendOk d = [Effect.ack d.DeliveryTag false] := by
  simp [processMessage]

theorem retryCountOf_of_int32 (d : Delivery) (t : Table) (n : Int)
    (ht : d.Headers = some t)
    (hv : Table.lookup t "x-retry-count" = some (Value.int32 n)) :
    retryCountOf d = n := by
  simp [retryCountOf, ht, hv]

theorem retryCountOf_nextDelivery (d : Delivery) :
    retryCountOf (nextDelivery d) = toInt32 (retryCountOf d + 1) :=
  retryCountOf_of_int32 (nextDelivery d) _ _ rfl
    (retryHeader_republishPublishing d (retryCountOf d + 1))

theorem deliveryTag_nextDelivery (d : Delivery) :
    (nextDelivery d).DeliveryTag = d.DeliveryTag + 1 := rfl

/-! ## Chains -/

theorem runChain_retry (c : MessageConsumer) (handlerOk : Nat → Bool) (fuel i : Nat)
    (d : Delivery) (hf : handlerOk i = false) (h : retryCountOf d < c.maxRetries) :
    runChain c handlerOk (fuel + 1) i d =
      retryStep c d ++ runChain c handlerOk fuel (i + 1) (nextDelivery d) := by
  simp [runChain, hf, processMessage_retry c true d h, republished, retryStep, nextDelivery]

theorem runChain_exhausted (c : MessageConsumer) (handlerOk : Nat → Bool) (fuel i : Nat)
    (d : Delivery) (hf : handlerOk i = false) (h : c.maxRetries ≤ retryCountOf d) :
    runChain c handlerOk (fuel + 1) i d = [Effect.nack d.DeliveryTag false false] := by
  simp [runChain, hf, processMessage_exhausted c true d h, republished]

theorem runChain_success (c : MessageConsumer) (handlerOk : Nat → Bool) (fuel i : Nat)
    (d : Delivery) (hf : handlerOk i = true) :
    runChain c handlerOk (fuel + 1) i d = [Effect.ack d.DeliveryTag false] := by
  simp [runChain, hf, processMessage_success, republished]

/-- A chain whose next `n` deliveries fail below the retry bound starts with
`n` retry steps. -/
theorem runChain_retries (c : MessageConsumer) (handlerOk : Nat → Bool) (n : Nat) :
    ∀ (fuel i : Nat) (d : Delivery),
      retryCountOf d = toInt32 (i : Int) →
      (∀ j, i ≤ j → j < i + n → handlerOk j = false ∧ toInt32 (j : Int) < c.maxRetries) →
      runChain c handlerOk (n + fuel) i d =
        retrySteps c n d ++ runChain c handlerOk fuel (i + n) (nextDelivery^[n] d) := by
  induction n with
  | zero => intro fuel i d _ _; simp [retrySteps]
  | succ n ih =>
    intro fuel i d hrc hall
    have h0 := hall i (le_refl i) (by omega)
    have hlt : retryCountOf d < c.maxRetries := by rw [hrc]; exact h0.2
    have hnext : retryCountOf (nextDelivery d) = toInt32 ((i + 1 : Nat) : Int) := by
      rw [retryCountOf_nextDelivery, hrc, toInt32_succ]; simp
    have hall' : ∀ j, i + 1 ≤ j → j < i + 1 + n →
        handlerOk j = false ∧ toInt32 (j : Int) < c.maxRetries :=
      fun j h1 h2 => hall j (by omega) (by omega)
    have hstep := ih fuel (i + 1) (nextDelivery d) hnext hall'
    have e1 : n + 1 + fuel = (n + fuel) + 1 := by omega
    rw [e1, runChain_retry c handlerOk (n + fuel) i d h0.1 hlt, hstep]
    have e2 : i + 1 + n = i + (n + 1) := by omega
    simp [retrySteps, e2, Function.iterate_succ_apply]

theorem retryCountOf_iterate (n : Nat) :
    ∀ (i : Nat) (d : Delivery), retryCountOf d = toInt32 (i : Int) →
      retryCountOf (nextDelivery^[n] d) = toInt32 ((i + n : Nat) : Int) := by
  induction n with
  | zero => intro i d h; simpa using h
  | succ n ih =>
    intro i d h
    have hnext : retryCountOf (nextDelivery d) = toInt32 ((i + 1 : Nat) : Int) := by
      rw [retryCountOf_nextDelivery, h, toInt32_succ]; simp
    have := ih (i + 1) (nextDelivery d) hnext
    rw [Function.iterate_succ_apply]
    have e : i + (n + 1) = i + 1 + n := by omega
    rw [e]; exact this

theorem deliveryTag_iterate (n : Nat) :
    ∀ d : Delivery, (nextDelivery^[n] d).DeliveryTag = d.DeliveryTag + n := by
  induction n with
  | zero => intro d; rfl
  | succ n ih =>
    intro d
    rw [Function.iterate_succ_apply, ih (nextDelivery d), deliveryTag_nextDelivery]
    omega

theorem retrySteps_headers (c : MessageConsumer) (n : Nat) :
    ∀ (i : Nat) (d : Delivery), retryCountOf d = toInt32 (i : Int) →
      List.map retryHeader (republished (retrySteps c n d)) =
        List.map (fun j : Nat => some (Value.int32 (toInt32 ((i + j + 1 : Nat) : Int))))
          (List.range n) := by
  induction n with
  | zero => intro i d _; rfl
  | succ n ih =>
    intro i d h
    have hnext : retryCountOf (nextDelivery d) = toInt32 ((i + 1 : Nat) : Int) := by
      rw [retryCountOf_nextDelivery, h, toInt32_succ]; simp
    have hrest := ih (i + 1) (nextDelivery d) hnext
    have hhead : retryHeader (republishPublishing d (retryCountOf d + 1)) =
        some (Value.int32 (toInt32 ((i + 0 + 1 : Nat) : Int))) := by
      rw [retryHeader_republishPublishing, h, toInt32_succ]; simp
    simp only [retrySteps, retryStep, republished_append, List.map_append, hrest]
    simp only [republished, List.map_cons, List.map_nil, hhead]
    rw [List.range_succ_eq_map]
    simp only [List.map_cons, List.map_map, List.singleton_append]
    refine congrArg _ ?_
    apply List.map_congr_left
    intro j _
    have e : i + 1 + j + 1 = i + (j + 1) + 1 := by omega
    simp only [Function.comp, Nat.succ_eq_add_one, e]

theorem retrySteps_nacks (c : MessageConsumer) (n : Nat) :
    ∀ d : Delivery, nacks (retrySteps c n d) = [] := by
  induction n with
  | zero => intro d; rfl
  | succ n ih => intro d; simp [retrySteps, retryStep, nacks_append, nacks, ih]

theorem retrySteps_acks (c : MessageConsumer) (n : Nat) :
    ∀ d : Delivery, acks (retrySteps c n d) =
      List.map (fun j : Nat => (d.DeliveryTag + j, false)) (List.range n) := by
  induction n with
  | zero => intro d; rfl
  | succ n ih =>
    intro d
    simp only [retrySteps, retryStep, acks_append, ih (nextDelivery d),
      deliveryTag_nextDelivery]
    simp only [acks]
    rw [List.range_succ_eq_map]
    simp only [List.map_cons, List.map_map, List.singleton_append, Nat.add_zero]
    refine congrArg _ ?_
    apply List.map_congr_left
    intro j _
    have e : d.DeliveryTag + 1 + j = d.DeliveryTag + (j + 1) := by omega
    simp only [Function.comp, Nat.succ_eq_add_one, e]

theorem retrySteps_republished_length (c : MessageConsumer) (n : Nat) :
    ∀ d : Delivery, (republished (retrySteps c n d)).length = n := by
  induction n with
  | zero => intro d; rfl
  | succ n ih =>
    intro d
    simp [retrySteps, retryStep, republished_append, republished, ih (nextDelivery d)]

/-! ## Retry of one delivery -/

/-- Where the incremented count fits the header's `int32`, a failed delivery
below the bound whose republish succeeds is republished once with
`x-retry-count = r + 1` and then acknowledged, and is not negatively
acknowledged. -/
theorem processMessage_retry_in_range (c : MessageConsumer) (d : Delivery)
    (h : retryCountOf d < c.maxRetries)
    (hlo : -2147483648 ≤ retryCountOf d + 1) (hhi : retryCountOf d + 1 < 2147483648) :
    ∃ p : Publishing,
      processMessage c false true d =
        [Effect.sleep (republishDelayMs (retryCountOf d + 1)),
         Effect.send "" c.queue p true,
         Effect.ack d.DeliveryTag false] ∧
      retryHeader p = some (Value.int32 (retryCountOf d + 1)) := by
  refine ⟨republishPublishing d (retryCountOf d + 1), ?_, ?_⟩
  · simpa using processMessage_retry c true d h
  · rw [retryHeader_republishPublishing, toInt32_of_range _ hlo hhi]

/-- C1, at the failing input: with `maxRetries = 2147483648`, a failed delivery
carrying `x-retry-count = 2147483647` is below the bound and its republish
succeeds, yet the one republished message carries
`x-retry-count = -2147483648` instead of `2147483648`; the delivery is then
acknowledged and not negatively acknowledged. -/
theorem processMessage_retry_header_wraps :
    retryCountOf (deliveryWith (Value.int32 2147483647)) = 2147483647 ∧
    retryCountOf (deliveryWith (Value.int32 2147483647)) <
      (consumerWith 2147483648).maxRetries ∧
    List.map retryHeader (republished (processMessage (consumerWith 2147483648) false true
      (deliveryWith (Value.int32 2147483647)))) = [some (Value.int32 (-2147483648))] ∧
    acks (processMessage (consumerWith 2147483648) false true
      (deliveryWith (Value.int32 2147483647))) = [(1, false)] ∧
    nacks (processMessage (consumerWith 2147483648) false true
      (deliveryWith (Value.int32 2147483647))) = [] := by
  decide

/-- C2: a failed delivery whose retry count has reached `maxRetries` (or is
above it) is negatively acknowledged without requeue and nothing else
happens; however often such a delivery is processed, the worker never
republishes and never acknowledges positively. -/
theorem processMessage_exhausted_nacks (c : MessageConsumer) (sendOk : Bool) (d : Delivery)
    (h : c.maxRetries ≤ retryCountOf d) :
    processMessage c false sendOk d = [Effect.nack d.DeliveryTag false false] ∧
    ∀ n : Nat,
      acks (worker c (List.replicate n (false, sendOk, d))) = [] ∧
      sendCalls (worker c (List.replicate n (false, sendOk, d))) = [] ∧
      nacks (worker c (List.replicate n (false, sendOk, d))) =
        List.replicate n (d.DeliveryTag, false, false) := by
  have h1 := processMessage_exhausted c sendOk d h
  refine ⟨h1, ?_⟩
  intro n
  induction n with
  | zero => simp [worker, acks, sendCalls, nacks]
  | succ n ih =>
    obtain ⟨ha, hs, hn⟩ := ih
    simp [List.replicate_succ, worker, h1, acks_append, sendCalls_append, nacks_append,
      acks, sendCalls, nacks, ha, hs, hn]

theorem processMessage_exhausted_nacks_witness :
    (consumerWith 3).maxRetries ≤ retryCountOf (deliveryWith (Value.int32 3)) ∧
    processMessage (consumerWith 3) false true (deliveryWith (Value.int32 3)) =
      [Effect.nack 1 false false] :=
  ⟨by decide,
   (processMessage_exhausted_nacks (consumerWith 3) true (deliveryWith (Value.int32 3))
      (by decide)).1⟩

/-! ## Chains -/

/-- With a bound that fits `int32`, a chain whose handler always fails makes
exactly `maxRetries` republishes, carrying 1, ..., `maxRetries`, then one
nack without requeue, and more fuel changes nothing. -/
theorem runChain_always_failing_in_range (c : MessageConsumer) (m extra : Nat)
    (d : Delivery) (hm : c.maxRetries = (m : Int)) (hfit : m < 2147483648)
    (hd : retryCountOf d = 0) :
    List.map retryHeader (republished (runChain c (fun _ => false) (m + (extra + 1)) 0 d)) =
      List.map (fun j : Nat => some (Value.int32 ((j : Int) + 1))) (List.range m) ∧
    nacks (runChain c (fun _ => false) (m + (extra + 1)) 0 d) =
      [(d.DeliveryTag + m, false, false)] ∧
    acks (runChain c (fun _ => false) (m + (extra + 1)) 0 d) =
      List.map (fun j : Nat => (d.DeliveryTag + j, false)) (List.range m) ∧
    (runChain c (fun _ => false) (m + (extra + 1)) 0 d).getLast? =
      some (Effect.nack (d.DeliveryTag + m) false false) := by
  have hrc : retryCountOf d = toInt32 ((0 : Nat) : Int) := by rw [hd]; decide
  have hall : ∀ j, 0 ≤ j → j < 0 + m →
      (fun _ : Nat => false) j = false ∧ toInt32 (j : Int) < c.maxRetries := by
    intro j _ hj
    refine ⟨rfl, ?_⟩
    rw [hm, toInt32_of_range _ (by omega) (by omega)]
    omega
  have hpre := runChain_retries c (fun _ => false) m (extra + 1) 0 d hrc hall
  have hlast : c.maxRetries ≤ retryCountOf (nextDelivery^[m] d) := by
    rw [retryCountOf_iterate m 0 d hrc, hm, toInt32_of_range _ (by omega) (by omega)]
    simp
  have hend := runChain_exhausted c (fun _ => false) extra (0 + m) (nextDelivery^[m] d)
    rfl hlast
  rw [hpre, hend, deliveryTag_iterate]
  refine ⟨?_, ?_, ?_, ?_⟩
  · rw [republished_append, List.map_append, retrySteps_headers c m 0 d hrc]
    simp only [republished, List.map_nil, List.append_nil]
    apply List.map_congr_left
    intro j hj
    have hjm : j < m := List.mem_range.mp hj
    rw [toInt32_of_range _ (by omega) (by omega)]
    simp
  · rw [nacks_append, retrySteps_nacks]; rfl
  · rw [acks_append, retrySteps_acks]; simp [acks]
  · simp

/-- C3, at the failing input: with `maxRetries = 2147483648` and a handler that
always fails, a chain started without header never reaches the nack: whatever
the number of deliveries processed, each one is republished and none is
negatively acknowledged, so more than `maxRetries` republishes occur. -/
theorem runChain_wrapped_never_nacks (fuel : Nat) :
    nacks (runChain (consumerWith 2147483648) (fun _ => false) fuel 0 freshDelivery) = [] ∧
    (republished (runChain (consumerWith 2147483648) (fun _ => false) fuel 0
      freshDelivery)).length = fuel := by
  have hrc : retryCountOf freshDelivery = toInt32 ((0 : Nat) : Int) := by decide
  have hall : ∀ j, 0 ≤ j → j < 0 + fuel →
      (fun _ : Nat => false) j = false ∧
        toInt32 (j : Int) < (consumerWith 2147483648).maxRetries :=
    fun j _ _ => ⟨rfl, toInt32_lt _⟩
  have hpre := runChain_retries (consumerWith 2147483648) (fun _ => false) fuel 0 0
    freshDelivery hrc hall
  rw [Nat.add_zero] at hpre
  rw [hpre]
  simp [runChain, nacks_append, republished_append, retrySteps_nacks,
    retrySteps_republished_length, nacks, republished]

/-- A chain whose handler fails on its first `k ≤ maxRetries` deliveries and
then succeeds makes exactly `k` republishes, the `j`-th carrying `int32(j)`,
acknowledges every delivery and negatively acknowledges none. -/
theorem runChain_fail_then_succeed (c : MessageConsumer) (handlerOk : Nat → Bool)
    (k extra : Nat) (d : Delivery) (hk : (k : Int) ≤ c.maxRetries)
    (hfail : ∀ j, j < k → handlerOk j = false) (hok : handlerOk k = true)
    (hd : retryCountOf d = 0) :
    List.map retryHeader (republished (runChain c handlerOk (k + (extra + 1)) 0 d)) =
      List.map (fun j : Nat => some (Value.int32 (toInt32 ((j + 1 : Nat) : Int))))
        (List.range k) ∧
    nacks (runChain c handlerOk (k + (extra + 1)) 0 d) = [] ∧
    acks (runChain c handlerOk (k + (extra + 1)) 0 d) =
      List.map (fun j : Nat => (d.DeliveryTag + j, false)) (List.range (k + 1)) ∧
    (runChain c handlerOk (k + (extra + 1)) 0 d).getLast? =
      some (Effect.ack (d.DeliveryTag + k) false) := by
  have hrc : retryCountOf d = toInt32 ((0 : Nat) : Int) := by rw [hd]; decide
  have hall : ∀ j, 0 ≤ j → j < 0 + k →
      handlerOk j = false ∧ toInt32 (j : Int) < c.maxRetries := by
    intro j _ hj
    refine ⟨hfail j (by omega), ?_⟩
    have := toInt32_natCast_le j
    omega
  have hpre := runChain_retries c handlerOk k (extra + 1) 0 d hrc hall
  have hend := runChain_success c handlerOk extra (0 + k) (nextDelivery^[k] d)
    (by simpa using hok)
  rw [hpre, hend, deliveryTag_iterate]
  refine ⟨?_, ?_, ?_, ?_⟩
  · rw [republished_append, List.map_append, retrySteps_headers c k 0 d hrc]
    simp only [republished, List.map_nil, List.append_nil]
    apply List.map_congr_left
    intro j _
    simp
  · rw [nacks_append, retrySteps_nacks]; rfl
  · rw [acks_append, retrySteps_acks]
    simp [acks, List.range_succ]
  · simp

/-- C4, at the failing input: with `maxRetries = 2147483648` and a handler that
fails on the first `2147483648` deliveries and succeeds on the next, the last
republish of the chain carries `x-retry-count = -2147483648`, not
`2147483648`. -/
theorem runChain_last_retry_header_wraps :
    (List.map retryHeader (republished (runChain (consumerWith 2147483648)
      (fun i => decide (2147483648 ≤ i)) 2147483649 0 freshDelivery)))[2147483647]? =
      some (some (Value.int32 (-2147483648))) := by
  have h := (runChain_fail_then_succeed (consumerWith 2147483648)
    (fun i => decide (2147483648 ≤ i)) 2147483648 0 freshDelivery (by decide)
    (fun j hj => by simpa using hj) (by simp) (by decide)).1
  have hfuel : (2147483649 : Nat) = 2147483648 + (0 + 1) := by norm_num
  rw [hfuel, h, List.getElem?_map, List.getElem?_range (by omega)]
  decide

/-! ## Backoff delay -/

/-- Up to retry count 24 the delay slept before a republish is
`min(5000, 100 * 2^r)` milliseconds. -/
theorem republishDelayMs_in_range (r : Nat) (h : r ≤ 24) :
    republishDelayMs ((r : Int) + 1) = delaySpec r := by
  interval_cases r <;> decide

/-- C5, at the failing input: with `maxRetries = 26`, a failed delivery with
retry count 25 is retried, and the duration passed to `time.Sleep` before the
republish is `-939524096` ms (`100 * 2^25` wrapped to `int32`), whereas
`min(5000, 100 * 2^25)` is 5000 ms; the delay is below 100 ms and smaller than
the 5000 ms slept at retry count 24. -/
theorem republish_delay_overflows :
    retryCountOf (deliveryWith (Value.int32 25)) = 25 ∧
    retryCountOf (deliveryWith (Value.int32 25)) < (consumerWith 26).maxRetries ∧
    sleeps (processMessage (consumerWith 26) false true (deliveryWith (Value.int32 25))) =
      [-939524096] ∧
    delaySpec 25 = 5000 ∧
    sleeps (processMessage (consumerWith 26) false true (deliveryWith (Value.int32 24))) =
      [5000] := by
  decide

/-! ## Failed republish -/

/-- C6: when the handler fails below the retry bound and the republish itself
fails, the delivery is negatively acknowledged without requeue and is not
acknowledged; nothing was published. -/
theorem processMessage_republish_failure_nacks (c : MessageConsumer) (d : Delivery)
    (h : retryCountOf d < c.maxRetries) :
    nacks (processMessage c false false d) = [(d.DeliveryTag, false, false)] ∧
    acks (processMessage c false false d) = [] ∧
    republished (processMessage c false false d) = [] ∧
    (processMessage c false false d).getLast? =
      some (Effect.nack d.DeliveryTag false false) := by
  rw [processMessage_retry c false d h]
  simp [nacks, acks, republished]

theorem processMessage_republish_failure_nacks_witness :
    retryCountOf freshDelivery < (consumerWith 3).maxRetries ∧
    nacks (processMessage (consumerWith 3) false false freshDelivery) = [(1, false, false)] ∧
    acks (processMessage (consumerWith 3) false false freshDelivery) = [] :=
  ⟨by decide,
   (processMessage_republish_failure_nacks (consumerWith 3) freshDelivery (by decide)).1,
   (processMessage_republish_failure_nacks (consumerWith 3) freshDelivery (by decide)).2.1⟩

/-! ## The republished message -/

theorem republishStore_headers (d : Delivery) (n : Int) :
    (republishStore d n).headers = republishHeaders d n := by
  unfold republishStore republishHeaders
  cases d.Headers <;> rfl

theorem republishStore_deliveryHeaders (d : Delivery) (n : Int) :
    (republishStore d n).deliveryHeaders = d.Headers := by
  unfold republishStore
  cases d.Headers <;> rfl

theorem lookup_republishHeaders (d : Delivery) (n : Int) (k : String)
    (hk : k ≠ "x-retry-count") (hwf : ∀ t, d.Headers = some t → Table.WF t) :
    Table.lookup (republishHeaders d n) k = d.header k := by
  unfold republishHeaders Delivery.header
  rw [Table.lookup_assign_ne _ _ _ _ (Ne.symm hk)]
  cases hh : d.Headers with
  | none => rfl
  | some t =>
    simp only []
    rw [Table.lookup_copyInto t [] k (hwf t hh)]
    cases Table.lookup t k <;> rfl

/-- C7: the retry of a failed delivery calls `Send` once, on the default
exchange with the consumer's queue as routing key; the message has the body,
content type, correlation id, message id, timestamp and delivery mode of the
failed delivery and every header of it other than `x-retry-count`; the
delivery's own header table is left as it was, the message carrying a table
of its own. -/
theorem republish_preserves_message (c : MessageConsumer) (sendOk : Bool) (d : Delivery)
    (h : retryCountOf d < c.maxRetries) (hwf : ∀ t, d.Headers = some t → Table.WF t) :
    ∃ p : Publishing,
      sendCalls (processMessage c false sendOk d) = [("", c.queue, p)] ∧
      p.Body = d.Body ∧ p.ContentType = d.ContentType ∧
      p.CorrelationId = d.CorrelationId ∧ p.MessageId = d.MessageId ∧
      p.Timestamp = d.Timestamp ∧ p.DeliveryMode = d.DeliveryMode ∧
      (∀ k, k ≠ "x-retry-count" → Table.lookup p.Headers k = d.header k) ∧
      (republishStore d (retryCountOf d + 1)).headers = p.Headers ∧
      (republishStore d (retryCountOf d + 1)).deliveryHeaders = d.Headers := by
  refine ⟨republishPublishing d (retryCountOf d + 1), ?_, rfl, rfl, rfl, rfl, rfl, rfl,
    ?_, ?_, ?_⟩
  · rw [processMessage_retry c sendOk d h]
    cases sendOk <;> simp [sendCalls]
  · intro k hk
    exact lookup_republishHeaders d _ k hk hwf
  · exact republishStore_headers d _
  · exact republishStore_deliveryHeaders d _

theorem republish_preserves_message_witness :
    retryCountOf (deliveryWith (Value.int32 1)) < (consumerWith 3).maxRetries ∧
    ∃ p : Publishing,
      sendCalls (processMessage (consumerWith 3) false true (deliveryWith (Value.int32 1))) =
        [("", "ride_requests", p)] ∧
      p.Body = [123, 125] ∧
      Table.lookup p.Headers "trace-id" = some (Value.str "t-9") := by
  refine ⟨by decide, ?_⟩
  obtain ⟨p, h1, h2, _, _, _, _, _, h8, _, _⟩ :=
    republish_preserves_message (consumerWith 3) true (deliveryWith (Value.int32 1))
      (by decide) (by intro t ht; cases ht; decide)
  exact ⟨p, h1, h2, h8 "trace-id" (by decide)⟩

/-! ## Reading the retry count -/

/-- C8, as stated, fails: a delivery whose `x-retry-count` header carries the
64-bit integer 5 is processed with retry count 0, not 5. -/
theorem retryCountOf_ignores_int64 :
    (deliveryWith (Value.int64 5)).header "x-retry-count" = some (Value.int64 5) ∧
    Value.integer? (Value.int64 5) = some 5 ∧
    retryCountSpec (deliveryWith (Value.int64 5)) = 5 ∧
    retryCountOf (deliveryWith (Value.int64 5)) = 0 ∧
    retryCountOf (deliveryWith (Value.int64 5)) ≠
      retryCountSpec (deliveryWith (Value.int64 5)) := by
  decide

/-- C8, amended: the retry count is the value of the `x-retry-count` header
when the header carries an `int32`, and 0 when the header table is absent,
the key is absent, or the value has any other type (an integer of another
width included). -/
theorem retryCountOf_int32_or_zero (d : Delivery) :
    (∀ n, d.header "x-retry-count" = some (Value.int32 n) → retryCountOf d = n) ∧
    (d.Headers = none → retryCountOf d = 0) ∧
    (∀ t, d.Headers = some t → Table.lookup t "x-retry-count" = none →
      retryCountOf d = 0) ∧
    (∀ v, d.header "x-retry-count" = some v → (∀ n, v ≠ Value.int32 n) →
      retryCountOf d = 0) := by
  refine ⟨?_, ?_, ?_, ?_⟩
  · intro n hn
    unfold Delivery.header at hn
    unfold retryCountOf
    cases hh : d.Headers with
    | none => rw [hh] at hn; cases hn
    | some t => rw [hh] at hn; simp only [] at hn ⊢; rw [hn]
  · intro hh
    unfold retryCountOf
    rw [hh]
  · intro t hh hl
    unfold retryCountOf
    rw [hh]; simp only []; rw [hl]
  · intro v hv hne
    unfold Delivery.header at hv
    unfold retryCountOf
    cases hh : d.Headers with
    | none => rfl
    | some t =>
      rw [hh] at hv; simp only [] at hv ⊢; rw [hv]
      cases v <;> first | rfl | exact absurd rfl (hne _)

theorem retryCountOf_int32_or_zero_witness :
    retryCountOf (deliveryWith (Value.int32 2)) = 2 ∧
    retryCountOf freshDelivery = 0 ∧
    retryCountOf (deliveryWith (Value.str "2")) = 0 :=
  ⟨(retryCountOf_int32_or_zero (deliveryWith (Value.int32 2))).1 2 (by decide),
   (retryCountOf_int32_or_zero freshDelivery).2.1 rfl,
   (retryCountOf_int32_or_zero (deliveryWith (Value.str "2"))).2.2.2 (Value.str "2")
     (by decide) (by intro n hn; cases hn)⟩

/-! ## Reconnection: one attempt at a time -/

theorem runningAttempts_append (a b : List Thread) :
    runningAttempts (a ++ b) = runningAttempts a + runningAttempts b := by
  induction a with
  | nil => simp [runningAttempts]
  | cons t ts ih => simp [runningAttempts, ih]; omega

theorem pendingDials_append (a b : List Thread) :
    pendingDials (a ++ b) = pendingDials a + pendingDials b := by
  induction a with
  | nil => simp [pendingDials]
  | cons t ts ih => simp [pendingDials, ih]; omega

theorem reconnectStep_stepsLeft (s : Client) (pc : Pc) (env : Answer) (h : pc ≠ Pc.done) :
    (reconnectStep s pc env).2.1.stepsLeft < pc.stepsLeft := by
  cases pc with
  | done => exact absurd rfl h
  | entry => by_cases hf : s.isReconnecting <;> simp [reconnectStep, hf, Pc.stepsLeft]
  | loopHead a =>
    by_cases ha : a ≤ reconnectMaxRetries <;> by_cases hc : s.closed <;>
      simp [reconnectStep, ha, hc, Pc.stepsLeft]
    unfold reconnectMaxRetries at ha
    omega
  | dial a => cases env <;> simp [reconnectStep, Pc.stepsLeft]
  | openChannel a c => cases env <;> simp [reconnectStep, Pc.stepsLeft]
  | backoff a => simp [reconnectStep, Pc.stepsLeft]
  | install c ch => simp [reconnectStep, Pc.stepsLeft]
  | signal => by_cases hr : s.connectionReady < 1 <;> simp [reconnectStep, hr, Pc.stepsLeft]
  | restart => simp [reconnectStep, Pc.stepsLeft]
  | exit => simp [reconnectStep, Pc.stepsLeft]

theorem reconnectStep_running (s : Client) (pc : Pc) (env : Answer)
    (hr : pc.running = true) (hx : pc ≠ Pc.exit) :
    (reconnectStep s pc env).1.isReconnecting = s.isReconnecting ∧
    (reconnectStep s pc env).2.1.running = true := by
  cases pc with
  | done => simp [Pc.running] at hr
  | entry => simp [Pc.running] at hr
  | exit => exact absurd rfl hx
  | loopHead a =>
    by_cases ha : a ≤ reconnectMaxRetries <;> by_cases hc : s.closed <;>
      simp [reconnectStep, ha, hc, Pc.running]
  | dial a => cases env <;> simp [reconnectStep, Pc.running]
  | openChannel a c => cases env <;> simp [reconnectStep, Pc.running]
  | backoff a => simp [reconnectStep, Pc.running]
  | install c ch => simp [reconnectStep, Pc.running]
  | signal => by_cases hr : s.connectionReady < 1 <;> simp [reconnectStep, hr, Pc.running]
  | restart => simp [reconnectStep, Pc.running]

/-- The flag and the number of running attempts move together in every step
of a goroutine. -/
theorem threadStep_flag (s : Client) (t : Thread) (env : Answer)
    (h : t.reconnecting = true → s.isReconnecting = true) :
    (if (threadStep s t env).1.isReconnecting then 1 else 0) +
        (if t.reconnecting then 1 else 0) =
      (if s.isReconnecting then 1 else 0) +
        (if (threadStep s t env).2.1.reconnecting then 1 else 0) ∧
    runningAttempts (threadStep s t env).2.2 = 0 := by
  cases t with
  | closer pc =>
    cases pc <;> cases env <;> simp [threadStep, closeStep, Thread.reconnecting, runningAttempts]
  | sender pc =>
    cases pc with
    | wait =>
      cases env with
      | ok v =>
        by_cases hr : 0 < s.connectionReady <;>
          simp [threadStep, sendStep, hr, Thread.reconnecting, runningAttempts]
      | fail => simp [threadStep, sendStep, Thread.reconnecting, runningAttempts]
    | restore =>
      by_cases hr : s.connectionReady < 1 <;>
        simp [threadStep, sendStep, hr, Thread.reconnecting, runningAttempts]
    | publish =>
      by_cases hrel : s.ch ∈ s.released <;> cases env <;>
        simp [threadStep, sendStep, Client.channelAnswer, hrel, Thread.reconnecting, runningAttempts]
    | done ok => simp [threadStep, sendStep, Thread.reconnecting, runningAttempts]
  | monitor mpc =>
    cases mpc with
    | start => simp [threadStep, monitorStep, Thread.reconnecting, runningAttempts]
    | wait => cases env <;> simp [threadStep, monitorStep, Thread.reconnecting, runningAttempts]
    | check =>
      by_cases hc : s.closed <;>
        simp [threadStep, monitorStep, hc, Thread.reconnecting, runningAttempts, Pc.running]
    | done => simp [threadStep, monitorStep, Thread.reconnecting, runningAttempts]
    | call pc =>
      cases pc with
      | done => simp [threadStep, monitorStep, Thread.reconnecting, runningAttempts, Pc.running]
      | entry =>
        by_cases hf : s.isReconnecting <;>
          simp [threadStep, monitorStep, reconnectStep, hf, Thread.reconnecting,
            runningAttempts, Pc.running]
      | exit =>
        have hs : s.isReconnecting = true := h (by simp [Thread.reconnecting, Pc.running])
        simp [threadStep, monitorStep, reconnectStep, hs, Thread.reconnecting,
          runningAttempts, Pc.running]
      | loopHead a =>
        have hs : s.isReconnecting = true := h (by simp [Thread.reconnecting, Pc.running])
        by_cases ha : a ≤ reconnectMaxRetries <;> by_cases hc : s.closed <;>
          simp [threadStep, monitorStep, reconnectStep, ha, hc, hs, Thread.reconnecting,
            runningAttempts, Pc.running]
      | dial a =>
        have hs : s.isReconnecting = true := h (by simp [Thread.reconnecting, Pc.running])
        cases env <;>
          simp [threadStep, monitorStep, reconnectStep, hs, Thread.reconnecting,
            runningAttempts, Pc.running]
      | openChannel a c =>
        have hs : s.isReconnecting = true := h (by simp [Thread.reconnecting, Pc.running])
        cases env <;>
          simp [threadStep, monitorStep, reconnectStep, hs, Thread.reconnecting,
            runningAttempts, Pc.running]
      | backoff a =>
        have hs : s.isReconnecting = true := h (by simp [Thread.reconnecting, Pc.running])
        simp [threadStep, monitorStep, reconnectStep, hs, Thread.reconnecting,
          runningAttempts, Pc.running]
      | install c ch =>
        have hs : s.isReconnecting = true := h (by simp [Thread.reconnecting, Pc.running])
        simp [threadStep, monitorStep, reconnectStep, hs, Thread.reconnecting,
          runningAttempts, Pc.running]
      | signal =>
        have hs : s.isReconnecting = true := h (by simp [Thread.reconnecting, Pc.running])
        by_cases hr : s.connectionReady < 1 <;>
          simp [threadStep, monitorStep, reconnectStep, hr, hs, Thread.reconnecting,
            runningAttempts, Pc.running]
      | restart =>
        have hs : s.isReconnecting = true := h (by simp [Thread.reconnecting, Pc.running])
        simp [threadStep, monitorStep, reconnectStep, hs, Thread.reconnecting,
          runningAttempts, Pc.running]

theorem runningAttempts_pos_of_mem (ts : List Thread) (t : Thread) (hm : t ∈ ts)
    (ht : t.reconnecting = true) : 0 < runningAttempts ts := by
  induction ts with
  | nil => cases hm
  | cons u us ih =>
    rcases List.mem_cons.mp hm with h | h
    · subst h; simp [runningAttempts, ht]
    · have := ih h
      simp only [runningAttempts]; omega

theorem stepAt_flag (ts : List Thread) :
    ∀ (i : Nat) (env : Answer) (s : Client),
      (∀ t ∈ ts, t.reconnecting = true → s.isReconnecting = true) →
      runningAttempts (stepAt s ts i env).2 + (if s.isReconnecting then 1 else 0) =
        runningAttempts ts + (if (stepAt s ts i env).1.isReconnecting then 1 else 0) := by
  induction ts with
  | nil => intro i env s _; simp [stepAt, runningAttempts]
  | cons t ts ih =>
    intro i env s h
    cases i with
    | zero =>
      have ht := threadStep_flag s t env (h t (List.mem_cons_self t ts))
      simp only [stepAt, runningAttempts, runningAttempts_append, ht.2]
      omega
    | succ i =>
      have hts := ih i env s (fun u hu => h u (List.mem_cons_of_mem t hu))
      simp only [stepAt, runningAttempts]
      omega

theorem flagMatches_step (sys : System) (i : Nat) (env : Answer) (h : flagMatches sys) :
    flagMatches (sys.step i env) := by
  unfold flagMatches at h ⊢
  have hmem : ∀ t ∈ sys.threads, t.reconnecting = true → sys.client.isReconnecting = true := by
    intro t hm ht
    have hpos := runningAttempts_pos_of_mem sys.threads t hm ht
    by_contra hf
    simp [hf] at h
    omega
  have hs := stepAt_flag sys.threads i env sys.client hmem
  simp only [System.step]
  omega

theorem flagMatches_run (schedule : List (Nat × Answer)) :
    ∀ sys : System, flagMatches sys → flagMatches (sys.run schedule) := by
  induction schedule with
  | nil => intro sys h; exact h
  | cons x rest ih =>
    intro sys h
    obtain ⟨i, env⟩ := x
    exact ih (sys.step i env) (flagMatches_step sys i env h)

/-- C9: a call of `reconnect` made while the in-progress flag is set returns in
one step and leaves the client (handles, readiness signal, history of
`Connect` calls) as it was; a call made while it is clear sets it.  While the
attempt runs no step of it touches the flag, success, exhaustion and a set
`closed` flag all lead to the deferred function, which clears it, and every
step brings the call nearer to its return.  In every run of the goroutines
that starts with no attempt in progress, at most one attempt runs at a
time, and the flag is set exactly while one runs. -/
theorem reconnect_single_flight :
    (∀ (s : Client) (env : Answer), s.isReconnecting = true →
      reconnectStep s Pc.entry env = (s, Pc.done, false) ∧
      monitorStep s (MonPc.call Pc.entry) env = (s, MonPc.call Pc.done, false)) ∧
    (∀ (s : Client) (env : Answer), s.isReconnecting = false →
      reconnectStep s Pc.entry env =
        ({ s with isReconnecting := true }, Pc.loopHead 1, false)) ∧
    (∀ (s : Client) (pc : Pc) (env : Answer), pc.running = true → pc ≠ Pc.exit →
      (reconnectStep s pc env).1.isReconnecting = s.isReconnecting ∧
      (reconnectStep s pc env).2.1.running = true) ∧
    (∀ (s : Client) (env : Answer), (reconnectStep s Pc.restart env).2.1 = Pc.exit) ∧
    (∀ (s : Client) (attempt : Nat) (env : Answer), reconnectMaxRetries < attempt →
      (reconnectStep s (Pc.loopHead attempt) env).2.1 = Pc.exit) ∧
    (∀ (s : Client) (attempt : Nat) (env : Answer), s.closed = true →
      (reconnectStep s (Pc.loopHead attempt) env).2.1 = Pc.exit) ∧
    (∀ (s : Client) (env : Answer),
      reconnectStep s Pc.exit env = ({ s with isReconnecting := false }, Pc.done, false)) ∧
    (∀ (s : Client) (pc : Pc) (env : Answer), pc ≠ Pc.done →
      (reconnectStep s pc env).2.1.stepsLeft < pc.stepsLeft) ∧
    (∀ (sys : System) (schedule : List (Nat × Answer)),
      sys.client.isReconnecting = false → runningAttempts sys.threads = 0 →
      runningAttempts (sys.run schedule).threads ≤ 1 ∧
      ((sys.run schedule).client.isReconnecting = true ↔
        runningAttempts (sys.run schedule).threads = 1)) := by
  refine ⟨?_, ?_, reconnectStep_running, ?_, ?_, ?_, ?_, reconnectStep_stepsLeft, ?_⟩
  · intro s env h
    simp [reconnectStep, monitorStep, h]
  · intro s env h
    simp [reconnectStep, h]
  · intro s env
    simp [reconnectStep]
  · intro s a env h
    have : ¬ a ≤ reconnectMaxRetries := by omega
    simp [reconnectStep, this]
  · intro s a env h
    by_cases ha : a ≤ reconnectMaxRetries <;> simp [reconnectStep, ha, h]
  · intro s env
    simp [reconnectStep]
  · intro sys schedule hf hr
    have h0 : flagMatches sys := by simp [flagMatches, hf, hr]
    have h := flagMatches_run schedule sys h0
    unfold flagMatches at h
    by_cases hfl : (sys.run schedule).client.isReconnecting = true
    · simp [hfl] at h
      simp [hfl, h]
    · simp [hfl] at h
      simp [hfl, h]

theorem reconnect_single_flight_witness :
    (newClientSystem 1 2).client.isReconnecting = false ∧
    runningAttempts (newClientSystem 1 2).threads = 0 ∧
    runningAttempts ((newClientSystem 1 2).run
      [(0, Answer.ok 0), (0, Answer.ok 0), (0, Answer.ok 0), (0, Answer.ok 0)]).threads ≤ 1 ∧
    reconnectStep closeDuringDial.client Pc.entry Answer.fail =
      (closeDuringDial.client, Pc.done, false) :=
  ⟨by decide, by decide,
   (reconnect_single_flight.2.2.2.2.2.2.2.2 (newClientSystem 1 2)
      [(0, Answer.ok 0), (0, Answer.ok 0), (0, Answer.ok 0), (0, Answer.ok 0)]
      (by decide) (by decide)).1,
   (reconnect_single_flight.1 closeDuringDial.client Answer.fail (by decide)).1⟩

/-! ## Reconnection and `Close` -/

theorem threadStep_closed (s : Client) (t : Thread) (env : Answer) (h : s.closed = true) :
    (threadStep s t env).1.closed = true ∧
    (threadStep s t env).1.dials +
        ((if (threadStep s t env).2.1.aboutToDial then 1 else 0) +
          pendingDials (threadStep s t env).2.2) ≤
      s.dials + (if t.aboutToDial then 1 else 0) := by
  cases t with
  | closer pc =>
    cases pc <;> cases env <;> simp [threadStep, closeStep, Thread.aboutToDial, pendingDials, h]
  | sender pc =>
    cases pc with
    | wait =>
      cases env with
      | ok v =>
        by_cases hr : 0 < s.connectionReady <;>
          simp [threadStep, sendStep, hr, Thread.aboutToDial, pendingDials, h]
      | fail => simp [threadStep, sendStep, Thread.aboutToDial, pendingDials, h]
    | restore =>
      by_cases hr : s.connectionReady < 1 <;>
        simp [threadStep, sendStep, hr, Thread.aboutToDial, pendingDials, h]
    | publish =>
      by_cases hrel : s.ch ∈ s.released <;> cases env <;>
        simp [threadStep, sendStep, Client.channelAnswer, hrel, Thread.aboutToDial, pendingDials, h]
    | done ok => simp [threadStep, sendStep, Thread.aboutToDial, pendingDials, h]
  | monitor mpc =>
    cases mpc with
    | start => simp [threadStep, monitorStep, Thread.aboutToDial, pendingDials, h]
    | wait => cases env <;> simp [threadStep, monitorStep, Thread.aboutToDial, pendingDials, h]
    | check => simp [threadStep, monitorStep, h, Thread.aboutToDial, pendingDials]
    | done => simp [threadStep, monitorStep, Thread.aboutToDial, pendingDials, h]
    | call pc =>
      cases pc with
      | done => simp [threadStep, monitorStep, Thread.aboutToDial, pendingDials, h]
      | entry =>
        by_cases hf : s.isReconnecting <;>
          simp [threadStep, monitorStep, reconnectStep, hf, Thread.aboutToDial, pendingDials, h]
      | exit =>
        simp [threadStep, monitorStep, reconnectStep, Thread.aboutToDial, pendingDials, h]
      | loopHead a =>
        by_cases ha : a ≤ reconnectMaxRetries <;>
          simp [threadStep, monitorStep, reconnectStep, ha, h, Thread.aboutToDial, pendingDials]
      | dial a =>
        cases env <;>
          simp [threadStep, monitorStep, reconnectStep, Thread.aboutToDial, pendingDials, h]
      | openChannel a c =>
        cases env <;>
          simp [threadStep, monitorStep, reconnectStep, Thread.aboutToDial, pendingDials, h]
      | backoff a =>
        simp [threadStep, monitorStep, reconnectStep, Thread.aboutToDial, pendingDials, h]
      | install c ch =>
        simp [threadStep, monitorStep, reconnectStep, Thread.aboutToDial, pendingDials, h]
      | signal =>
        by_cases hr : s.connectionReady < 1 <;>
          simp [threadStep, monitorStep, reconnectStep, hr, Thread.aboutToDial, pendingDials, h]
      | restart =>
        simp [threadStep, monitorStep, reconnectStep, Thread.aboutToDial, pendingDials, h]

theorem stepAt_closed (ts : List Thread) :
    ∀ (i : Nat) (env : Answer) (s : Client), s.closed = true →
      (stepAt s ts i env).1.closed = true ∧
      (stepAt s ts i env).1.dials + pendingDials (stepAt s ts i env).2 ≤
        s.dials + pendingDials ts := by
  induction ts with
  | nil => intro i env s h; simp [stepAt, h]
  | cons t ts ih =>
    intro i env s h
    cases i with
    | zero =>
      have ht := threadStep_closed s t env h
      simp only [stepAt, pendingDials, pendingDials_append]
      exact ⟨ht.1, by omega⟩
    | succ i =>
      have hts := ih i env s h
      simp only [stepAt, pendingDials]
      exact ⟨hts.1, by omega⟩

theorem run_closed (schedule : List (Nat × Answer)) :
    ∀ sys : System, sys.client.closed = true →
      (sys.run schedule).client.closed = true ∧
      (sys.run schedule).client.dials + pendingDials (sys.run schedule).threads ≤
        sys.client.dials + pendingDials sys.threads := by
  induction schedule with
  | nil => intro sys h; exact ⟨h, le_refl _⟩
  | cons x rest ih =>
    intro sys h
    obtain ⟨i, env⟩ := x
    have h1 := stepAt_closed sys.threads i env sys.client h
    have h2 := ih (sys.step i env) h1.1
    simp only [System.run]
    simp only [System.step] at h2 ⊢
    exact ⟨h2.1, by omega⟩

/-- C10, as stated, fails: `Close` sets the flag while the monitor is inside the
first iteration of `reconnect`, past its test of the flag and before
`Connect`; no connection has been opened so far.  The iteration then goes on:
it calls `Connect`, installs connection 7 and channel 8 in place of handles 1
and 2, and starts a new monitor, all with the flag set. -/
theorem reconnect_dials_after_close :
    closeDuringDial.client.closed = true ∧
    closeDuringDial.client.dials = 0 ∧
    closeDuringDial.client.conn = 1 ∧
    closeDuringDial.threads =
      [Thread.monitor (MonPc.call (Pc.dial 1)), Thread.closer ClosePc.closeChannel] ∧
    (closeDuringDial.run closeDuringDialRest).client.closed = true ∧
    (closeDuringDial.run closeDuringDialRest).client.dials = 1 ∧
    (closeDuringDial.run closeDuringDialRest).client.conn = 7 ∧
    (closeDuringDial.run closeDuringDialRest).client.ch = 8 ∧
    (closeDuringDial.run closeDuringDialRest).threads =
      [Thread.monitor (MonPc.call Pc.done), Thread.closer ClosePc.closeChannel,
       Thread.monitor MonPc.start] := by
  decide

/-- C10, amended: `Close` sets the closed flag and no step clears it.  With the
flag set, a monitor that has received a loss notification returns without
calling `reconnect`, and a running `reconnect` loop that reaches the test at
the head of an iteration leaves the loop without calling `Connect`.  So in
every run that starts with the flag set, the only calls of `Connect` still
made are those of iterations that had passed the test before: the calls made
plus the iterations about to call never grow in number. -/
theorem closed_stops_reconnection :
    (∀ (s : Client) (env : Answer), (closeStep s ClosePc.start env).1.closed = true) ∧
    (∀ (s : Client) (env : Answer), s.closed = true →
      monitorStep s MonPc.check env = (s, MonPc.done, false)) ∧
    (∀ (s : Client) (attempt : Nat) (env : Answer), s.closed = true →
      reconnectStep s (Pc.loopHead attempt) env = (s, Pc.exit, false)) ∧
    (∀ (sys : System) (schedule : List (Nat × Answer)), sys.client.closed = true →
      (sys.run schedule).client.closed = true ∧
      (sys.run schedule).client.dials + pendingDials (sys.run schedule).threads ≤
        sys.client.dials + pendingDials sys.threads) := by
  refine ⟨?_, ?_, ?_, fun sys schedule h => run_closed schedule sys h⟩
  · intro s env
    simp [closeStep]
  · intro s env h
    simp [monitorStep, h]
  · intro s a env h
    by_cases ha : a ≤ reconnectMaxRetries <;> simp [reconnectStep, ha, h]

theorem closed_stops_reconnection_witness :
    closedWhileWaiting.client.closed = true ∧
    (closedWhileWaiting.run [(0, Answer.ok 0), (0, Answer.ok 0)]).client.dials +
        pendingDials (closedWhileWaiting.run [(0, Answer.ok 0), (0, Answer.ok 0)]).threads ≤
      closedWhileWaiting.client.dials + pendingDials closedWhileWaiting.threads ∧
    monitorStep closedWhileWaiting.client MonPc.check (Answer.ok 0) =
      (closedWhileWaiting.client, MonPc.done, false) :=
  ⟨by decide,
   (closed_stops_reconnection.2.2.2 closedWhileWaiting [(0, Answer.ok 0), (0, Answer.ok 0)]
      (by decide)).2,
   closed_stops_reconnection.2.1 closedWhileWaiting.client (Answer.ok 0) (by decide)⟩

/-! ## Reconnection: backoff -/

theorem backoffDelays_succ (n : Nat) :
    backoffDelays (n + 1) = backoffDelays n ++ [reconnectDelay (n + 1)] := by
  simp [backoffDelays, List.range_succ]

theorem attemptRecord_step (dials0 : Nat) (slept0 : List Nat) (s : Client) (pc : Pc)
    (env : Answer) (h : attemptRecord dials0 slept0 s pc) :
    attemptRecord dials0 slept0 (reconnectStep s pc env).1 (reconnectStep s pc env).2.1 := by
  cases pc with
  | entry =>
    obtain ⟨h1, h2⟩ := h
    by_cases hf : s.isReconnecting
    · simp only [reconnectStep, hf, if_true, attemptRecord]
      exact ⟨0, by omega, by omega, by simp [backoffDelays, h2]⟩
    · simp [reconnectStep, hf, attemptRecord, h1, h2, backoffDelays]
  | loopHead a =>
    obtain ⟨h1, h2, h3, h4⟩ := h
    by_cases ha : a ≤ reconnectMaxRetries
    · by_cases hc : s.closed
      · simp only [reconnectStep, ha, hc, if_true, attemptRecord]
        unfold reconnectMaxRetries at ha
        exact ⟨a - 1, by omega, by omega, h4⟩
      · simp only [reconnectStep, ha, hc, if_true, attemptRecord]
        unfold reconnectMaxRetries at ha
        exact ⟨h1, ha, h3, h4⟩
    · simp only [reconnectStep, ha, if_false, attemptRecord]
      unfold reconnectMaxRetries at ha
      exact ⟨a - 1, by omega, by omega, h4⟩
  | dial a =>
    obtain ⟨h1, h2, h3, h4⟩ := h
    cases env <;> simp only [reconnectStep, attemptRecord] <;>
      exact ⟨h1, h2, by omega, h4⟩
  | openChannel a c =>
    obtain ⟨h1, h2, h3, h4⟩ := h
    cases env with
    | ok ch =>
      simp only [reconnectStep, attemptRecord]
      exact ⟨a - 1, by omega, by omega, h4⟩
    | fail =>
      simp only [reconnectStep, attemptRecord]
      exact ⟨h1, h2, h3, h4⟩
  | backoff a =>
    obtain ⟨h1, h2, h3, h4⟩ := h
    simp only [reconnectStep, attemptRecord]
    refine ⟨by omega, by omega, by omega, ?_⟩
    obtain ⟨n, rfl⟩ : ∃ n, a = n + 1 := ⟨a - 1, by omega⟩
    simp only [Nat.add_sub_cancel] at h4 ⊢
    rw [backoffDelays_succ, h4, List.append_assoc]
  | install c ch =>
    obtain ⟨k, hk, hd, hs⟩ := h
    simp only [reconnectStep, attemptRecord]
    exact ⟨k, hk, hd, hs⟩
  | signal =>
    obtain ⟨k, hk, hd, hs⟩ := h
    by_cases hr : s.connectionReady < 1 <;>
      simp only [reconnectStep, hr, if_true, if_false, attemptRecord] <;>
      exact ⟨k, hk, hd, hs⟩
  | restart =>
    obtain ⟨k, hk, hd, hs⟩ := h
    simp only [reconnectStep, attemptRecord]
    exact ⟨k, hk, hd, hs⟩
  | exit =>
    obtain ⟨k, hk, hd, hs⟩ := h
    simp only [reconnectStep, attemptRecord]
    exact ⟨k, hk, hd, hs⟩
  | done =>
    obtain ⟨k, hk, hd, hs⟩ := h
    simp only [reconnectStep, attemptRecord]
    exact ⟨k, hk, hd, hs⟩

theorem attemptRecord_run (dials0 : Nat) (slept0 : List Nat) (answers : List Answer) :
    ∀ (s : Client) (pc : Pc), attemptRecord dials0 slept0 s pc →
      attemptRecord dials0 slept0 (reconnectRun s pc answers).1 (reconnectRun s pc answers).2 := by
  induction answers with
  | nil => intro s pc h; exact h
  | cons env rest ih =>
    intro s pc h
    exact ih _ _ (attemptRecord_step dials0 slept0 s pc env h)

theorem reconnectStep_stepsLeft_le (s : Client) (pc : Pc) (env : Answer) :
    (reconnectStep s pc env).2.1.stepsLeft ≤ pc.stepsLeft - 1 := by
  by_cases h : pc = Pc.done
  · subst h; simp [reconnectStep, Pc.stepsLeft]
  · have := reconnectStep_stepsLeft s pc env h
    omega

theorem reconnectRun_stepsLeft (answers : List Answer) :
    ∀ (s : Client) (pc : Pc),
      (reconnectRun s pc answers).2.stepsLeft ≤ pc.stepsLeft - answers.length := by
  induction answers with
  | nil => intro s pc; simp [reconnectRun]
  | cons env rest ih =>
    intro s pc
    have h1 := ih (reconnectStep s pc env).1 (reconnectStep s pc env).2.1
    have h2 := reconnectStep_stepsLeft_le s pc env
    simp only [reconnectRun, List.length_cons]
    omega

theorem Pc.stepsLeft_eq_zero (pc : Pc) (h : pc.stepsLeft = 0) : pc = Pc.done := by
  cases pc <;> simp [Pc.stepsLeft] at h ⊢

/-- C11: after a failed attempt number `n` (`Connect` or `Channel` failing)
`reconnect` sleeps `reconnectDelay n`, which for `n` from 1 to 10 is
`min(30 s, 1 s * 2^(n-1))`: 1, 2, 4, 8, 16 s and then 30 s (durations are in
nanoseconds; the `float64` products and the minimum of the source are exact
on them).  Three failures
followed by a success sleep 1 s, 2 s and 4 s and install the new handles.
Every call of `reconnect` returns, having called `Connect` at most 10 times
and slept the delays of its failed attempts 1, ..., `k` in this order. -/
theorem reconnect_backoff :
    List.map reconnectDelay [1, 2, 3, 4, 5, 6, 7, 8, 9, 10] =
      [1000000000, 2000000000, 4000000000, 8000000000, 16000000000, 30000000000,
       30000000000, 30000000000, 30000000000, 30000000000] ∧
    (∀ n : Nat, 1 ≤ n → n ≤ 10 →
      reconnectDelay n = min 30000000000 (1000000000 * 2 ^ (n - 1))) ∧
    (∀ (s : Client) (n : Nat),
      (reconnectStep s (Pc.dial n) Answer.fail).2.1 = Pc.backoff n) ∧
    (∀ (s : Client) (n conn : Nat),
      (reconnectStep s (Pc.openChannel n conn) Answer.fail).2.1 = Pc.backoff n) ∧
    (∀ (s : Client) (n : Nat) (env : Answer),
      reconnectStep s (Pc.backoff n) env =
        ({ s with slept := s.slept ++ [reconnectDelay n] }, Pc.loopHead (n + 1), false)) ∧
    (∀ s : Client, s.isReconnecting = false → s.closed = false →
      (reconnectRun s Pc.entry
        ([Answer.ok 0] ++
          [Answer.ok 0, Answer.fail, Answer.ok 0] ++
          [Answer.ok 0, Answer.ok 5, Answer.fail, Answer.ok 0] ++
          [Answer.ok 0, Answer.fail, Answer.ok 0] ++
          [Answer.ok 0, Answer.ok 7, Answer.ok 8, Answer.ok 0, Answer.ok 0, Answer.ok 0,
           Answer.ok 0])).2 = Pc.done ∧
      (reconnectRun s Pc.entry
        ([Answer.ok 0] ++
          [Answer.ok 0, Answer.fail, Answer.ok 0] ++
          [Answer.ok 0, Answer.ok 5, Answer.fail, Answer.ok 0] ++
          [Answer.ok 0, Answer.fail, Answer.ok 0] ++
          [Answer.ok 0, Answer.ok 7, Answer.ok 8, Answer.ok 0, Answer.ok 0, Answer.ok 0,
           Answer.ok 0])).1.slept = s.slept ++ [1000000000, 2000000000, 4000000000] ∧
      (reconnectRun s Pc.entry
        ([Answer.ok 0] ++
          [Answer.ok 0, Answer.fail, Answer.ok 0] ++
          [Answer.ok 0, Answer.ok 5, Answer.fail, Answer.ok 0] ++
          [Answer.ok 0, Answer.fail, Answer.ok 0] ++
          [Answer.ok 0, Answer.ok 7, Answer.ok 8, Answer.ok 0, Answer.ok 0, Answer.ok 0,
           Answer.ok 0])).1.conn = 7) ∧
    (∀ (s : Client) (answers : List Answer), 46 ≤ answers.length →
      (reconnectRun s Pc.entry answers).2 = Pc.done ∧
      (reconnectRun s Pc.entry answers).1.dials ≤ s.dials + 10 ∧
      ∃ k, k ≤ 10 ∧ (reconnectRun s Pc.entry answers).1.slept = s.slept ++ backoffDelays k) := by
  refine ⟨by decide, ?_, ?_, ?_, ?_, ?_, ?_⟩
  · intro n h1 h2
    unfold reconnectDelay
    exact Nat.min_comm _ _
  · intro s n; simp [reconnectStep]
  · intro s n c; simp [reconnectStep]
  · intro s n env; simp [reconnectStep]
  · intro s hf hc
    by_cases hr : s.connectionReady = 0 <;>
      simp [reconnectRun, reconnectStep, hf, hc, hr, reconnectMaxRetries, reconnectDelay]
  · intro s answers hlen
    have hdone : (reconnectRun s Pc.entry answers).2 = Pc.done := by
      apply Pc.stepsLeft_eq_zero
      have hle := reconnectRun_stepsLeft answers s Pc.entry
      have h46 : Pc.entry.stepsLeft = 46 := rfl
      rw [h46] at hle
      omega
    have hrec := attemptRecord_run s.dials s.slept answers s Pc.entry ⟨rfl, rfl⟩
    rw [hdone] at hrec
    obtain ⟨k, hk, hd, hs⟩ := hrec
    exact ⟨hdone, hd, k, hk, hs⟩

theorem reconnect_backoff_witness :
    (46 : Nat) ≤ (List.replicate 46 Answer.fail).length ∧
    (reconnectRun (newClientSystem 1 2).client Pc.entry (List.replicate 46 Answer.fail)).2 =
      Pc.done ∧
    (reconnectRun (newClientSystem 1 2).client Pc.entry
      (List.replicate 46 Answer.fail)).1.dials ≤ (newClientSystem 1 2).client.dials + 10 ∧
    reconnectDelay 6 = min 30000000000 (1000000000 * 2 ^ (6 - 1)) :=
  ⟨by decide,
   (reconnect_backoff.2.2.2.2.2.2 (newClientSystem 1 2).client (List.replicate 46 Answer.fail)
      (by decide)).1,
   (reconnect_backoff.2.2.2.2.2.2 (newClientSystem 1 2).client (List.replicate 46 Answer.fail)
      (by decide)).2.1,
   reconnect_backoff.2.1 6 (by decide) (by decide)⟩

/-! ## Readiness -/

/-- No step of `reconnect`, of the monitor or of `Close` takes a token out of
the readiness signal. -/
theorem readiness_never_cleared (s : Client) (env : Answer) :
    (∀ pc : Pc, s.connectionReady ≤ (reconnectStep s pc env).1.connectionReady) ∧
    (∀ pc : MonPc, s.connectionReady ≤ (monitorStep s pc env).1.connectionReady) ∧
    (∀ pc : ClosePc, s.connectionReady ≤ (closeStep s pc env).1.connectionReady) := by
  have h1 : ∀ pc : Pc, s.connectionReady ≤ (reconnectStep s pc env).1.connectionReady := by
    intro pc
    cases pc with
    | entry => by_cases hf : s.isReconnecting <;> simp [reconnectStep, hf]
    | loopHead a =>
      by_cases ha : a ≤ reconnectMaxRetries <;> by_cases hc : s.closed <;>
        simp [reconnectStep, ha, hc]
    | dial a => cases env <;> simp [reconnectStep]
    | openChannel a c => cases env <;> simp [reconnectStep]
    | backoff a => simp [reconnectStep]
    | install c ch => simp [reconnectStep]
    | signal => by_cases hr : s.connectionReady < 1 <;> simp [reconnectStep, hr]
    | restart => simp [reconnectStep]
    | exit => simp [reconnectStep]
    | done => simp [reconnectStep]
  refine ⟨h1, ?_, ?_⟩
  · intro pc
    cases pc with
    | start => simp [monitorStep]
    | wait => cases env <;> simp [monitorStep]
    | check => by_cases hc : s.closed <;> simp [monitorStep, hc]
    | done => simp [monitorStep]
    | call rpc =>
      cases rpc with
      | done => simp [monitorStep]
      | entry => exact h1 Pc.entry
      | loopHead a => exact h1 (Pc.loopHead a)
      | dial a => exact h1 (Pc.dial a)
      | openChannel a c => exact h1 (Pc.openChannel a c)
      | backoff a => exact h1 (Pc.backoff a)
      | install c ch => exact h1 (Pc.install c ch)
      | signal => exact h1 Pc.signal
      | restart => exact h1 Pc.restart
      | exit => exact h1 Pc.exit
  · intro pc
    cases pc <;> cases env <;> simp [closeStep]

/-- C12, at the failing input: a ready client loses its connection.  While the
fourth attempt to reconnect is about to start, and again after all ten
attempts have failed and `reconnect` has given up, the readiness signal still
holds its token and the client still holds the old channel 2; a `Send` with a
live context then passes the readiness check without waiting, calls
`PublishWithContext` and puts the token back. -/
theorem send_ready_during_reconnect :
    reconnecting.client.isReconnecting = true ∧
    reconnecting.client.dials = 3 ∧
    reconnecting.threads =
      [Thread.monitor (MonPc.call (Pc.loopHead 4)), Thread.sender SendPc.wait] ∧
    reconnecting.client.connectionReady = 1 ∧
    reconnecting.client.ch = 2 ∧
    (reconnecting.run (sendSteps 1)).client.published = 1 ∧
    (reconnecting.run (sendSteps 1)).threads =
      [Thread.monitor (MonPc.call (Pc.loopHead 4)), Thread.sender (SendPc.done true)] ∧
    reconnectGivenUp.client.dials = 10 ∧
    reconnectGivenUp.threads =
      [Thread.monitor (MonPc.call Pc.done), Thread.sender SendPc.wait] ∧
    reconnectGivenUp.client.connectionReady = 1 ∧
    reconnectGivenUp.client.ch = 2 ∧
    (reconnectGivenUp.run (sendSteps 1)).client.published = 1 ∧
    (reconnectGivenUp.run (sendSteps 1)).client.connectionReady = 1 ∧
    (reconnectGivenUp.run (sendSteps 1)).threads =
      [Thread.monitor (MonPc.call Pc.done), Thread.sender (SendPc.done true)] := by
  decide

/-- C13, as stated, fails: on a ready client (slot full) a call of `Send` whose
context is already done can take the `ctx.Done()` branch of the `select`; it
then returns the "connection not ready" error, and not `nil`, with the slot
still full. -/
theorem send_ready_but_cancelled :
    (newClientSystem 1 2).client.connectionReady = 1 ∧
    sendStep (newClientSystem 1 2).client SendPc.wait Answer.fail =
      ((newClientSystem 1 2).client, SendPc.done false) := by
  decide

theorem sendSequence_ready (pubs : List Answer) :
    ∀ s : Client, s.connectionReady = 1 →
      (sendSequence s pubs).1.connectionReady = 1 ∧
      (sendSequence s pubs).1.published = s.published + pubs.length ∧
      (sendSequence s pubs).2 =
        List.map (fun pub => SendPc.done (decide (pub ≠ Answer.fail))) pubs := by
  induction pubs with
  | nil => intro s h; simp [sendSequence, h]
  | cons pub rest ih =>
    intro s h
    have hstep : (sendRun s SendPc.wait [Answer.ok 0, Answer.ok 0, pub]).1.connectionReady = 1 ∧
        (sendRun s SendPc.wait [Answer.ok 0, Answer.ok 0, pub]).1.published = s.published + 1 ∧
        (sendRun s SendPc.wait [Answer.ok 0, Answer.ok 0, pub]).2 =
          SendPc.done (decide (pub ≠ Answer.fail)) := by
      cases pub <;> simp [sendRun, sendStep, h]
    obtain ⟨h1, h2, h3⟩ := ih _ hstep.1
    simp only [sendSequence, List.map_cons, List.length_cons]
    refine ⟨h1, ?_, ?_⟩
    · rw [h2, hstep.2.1]; omega
    · rw [h3, hstep.2.2]

/-- C13, amended: on a ready client (slot full), a `Send` whose context is not
done takes the token and puts it back at once, leaving the slot full and
going on to publish; so any number of consecutive such calls pass the
readiness check, none waiting, and each makes its one call of
`PublishWithContext`.  On a client whose slot is empty, a `Send` whose context
is done returns the error without publishing and without touching the
client. -/
theorem send_readiness_check :
    (∀ (s : Client) (v w : Nat), s.connectionReady = 1 →
      sendRun s SendPc.wait [Answer.ok v, Answer.ok w] = (s, SendPc.publish)) ∧
    (∀ (s : Client) (pubs : List Answer), s.connectionReady = 1 →
      (sendSequence s pubs).1.connectionReady = 1 ∧
      (sendSequence s pubs).1.published = s.published + pubs.length ∧
      (sendSequence s pubs).2 =
        List.map (fun pub => SendPc.done (decide (pub ≠ Answer.fail))) pubs) ∧
    (∀ s : Client, s.connectionReady = 0 →
      sendStep s SendPc.wait Answer.fail = (s, SendPc.done false) ∧
      ∀ v : Nat, sendStep s SendPc.wait (Answer.ok v) = (s, SendPc.wait)) := by
  refine ⟨?_, fun s pubs h => sendSequence_ready pubs s h, ?_⟩
  · intro s v w h
    simp only [sendRun, sendStep, h, Nat.lt_irrefl, Nat.zero_lt_one, if_true, Nat.sub_self,
      Nat.zero_add]
    cases s
    simp_all
  · intro s h
    simp [sendStep, h]

theorem send_readiness_check_witness :
    (newClientSystem 1 2).client.connectionReady = 1 ∧
    (sendSequence (newClientSystem 1 2).client
      [Answer.ok 0, Answer.fail, Answer.ok 0]).1.connectionReady = 1 ∧
    (sendSequence (newClientSystem 1 2).client [Answer.ok 0, Answer.fail, Answer.ok 0]).2 =
      [SendPc.done true, SendPc.done false, SendPc.done true] :=
  ⟨by decide,
   (send_readiness_check.2.1 (newClientSystem 1 2).client
      [Answer.ok 0, Answer.fail, Answer.ok 0] (by decide)).1,
   (send_readiness_check.2.1 (newClientSystem 1 2).client
      [Answer.ok 0, Answer.fail, Answer.ok 0] (by decide)).2.2⟩

theorem threadStep_noSelect (s : Client) (t : Thread) (env : Answer)
    (hs : s.connectionReady = 1) (ht : t.atSelect = false) :
    (threadStep s t env).1.connectionReady = 1 ∧
    (threadStep s t env).2.1.atSelect = false ∧
    (∀ u ∈ (threadStep s t env).2.2, u.atSelect = false) ∧
    (t = Thread.sender SendPc.restore →
      (threadStep s t env).2.1 = Thread.sender SendPc.restore) := by
  cases t with
  | closer pc => cases pc <;> cases env <;> simp [threadStep, closeStep, Thread.atSelect, hs]
  | sender pc =>
    cases pc with
    | wait => simp [Thread.atSelect] at ht
    | restore => simp [threadStep, sendStep, hs, Thread.atSelect]
    | publish =>
      by_cases hrel : s.ch ∈ s.released <;> cases env <;>
        simp [threadStep, sendStep, Client.channelAnswer, hrel, hs, Thread.atSelect]
    | done ok => simp [threadStep, sendStep, hs, Thread.atSelect]
  | monitor mpc =>
    cases mpc with
    | start => simp [threadStep, monitorStep, Thread.atSelect, hs]
    | wait => cases env <;> simp [threadStep, monitorStep, Thread.atSelect, hs]
    | check => by_cases hc : s.closed <;> simp [threadStep, monitorStep, hc, Thread.atSelect, hs]
    | done => simp [threadStep, monitorStep, Thread.atSelect, hs]
    | call pc =>
      cases pc with
      | done => simp [threadStep, monitorStep, Thread.atSelect, hs]
      | entry =>
        by_cases hf : s.isReconnecting <;>
          simp [threadStep, monitorStep, reconnectStep, hf, Thread.atSelect, hs]
      | exit => simp [threadStep, monitorStep, reconnectStep, Thread.atSelect, hs]
      | loopHead a =>
        by_cases ha : a ≤ reconnectMaxRetries <;> by_cases hc : s.closed <;>
          simp [threadStep, monitorStep, reconnectStep, ha, hc, Thread.atSelect, hs]
      | dial a => cases env <;> simp [threadStep, monitorStep, reconnectStep, Thread.atSelect, hs]
      | openChannel a c =>
        cases env <;> simp [threadStep, monitorStep, reconnectStep, Thread.atSelect, hs]
      | backoff a => simp [threadStep, monitorStep, reconnectStep, Thread.atSelect, hs]
      | install c ch => simp [threadStep, monitorStep, reconnectStep, Thread.atSelect, hs]
      | signal => simp [threadStep, monitorStep, reconnectStep, Thread.atSelect, hs]
      | restart => simp [threadStep, monitorStep, reconnectStep, Thread.atSelect, hs]

theorem stepAt_noSelect (ts : List Thread) :
    ∀ (i : Nat) (env : Answer) (s : Client), s.connectionReady = 1 →
      (∀ t ∈ ts, t.atSelect = false) →
      (stepAt s ts i env).1.connectionReady = 1 ∧
      ∀ t ∈ (stepAt s ts i env).2, t.atSelect = false := by
  induction ts with
  | nil => intro i env s hs _; simp [stepAt, hs]
  | cons t ts ih =>
    intro i env s hs hall
    cases i with
    | zero =>
      have ht := threadStep_noSelect s t env hs (hall t (List.mem_cons_self t ts))
      simp only [stepAt]
      refine ⟨ht.1, ?_⟩
      intro u hu
      rcases List.mem_cons.mp hu with h | h
      · rw [h]; exact ht.2.1
      · rcases List.mem_append.mp h with h | h
        · exact hall u (List.mem_cons_of_mem t h)
        · exact ht.2.2.1 u h
    | succ i =>
      have hts := ih i env s hs (fun u hu => hall u (List.mem_cons_of_mem t hu))
      simp only [stepAt]
      refine ⟨hts.1, ?_⟩
      intro u hu
      rcases List.mem_cons.mp hu with h | h
      · rw [h]; exact hall t (List.mem_cons_self t ts)
      · exact hts.2 u h

theorem restoreStuck_step (sys : System) (i : Nat) (env : Answer)
    (h : restoreStuck sys) : restoreStuck (sys.step i env) := by
  obtain ⟨rest, hth, hs, hall⟩ := h
  unfold restoreStuck
  simp only [System.step, hth]
  cases i with
  | zero =>
    have ht := threadStep_noSelect sys.client (Thread.sender SendPc.restore) env hs rfl
    refine ⟨rest ++ (threadStep sys.client (Thread.sender SendPc.restore) env).2.2, ?_, ht.1, ?_⟩
    · simp only [stepAt]; rw [ht.2.2.2 rfl]
    · intro u hu
      rcases List.mem_append.mp hu with h | h
      · exact hall u h
      · exact ht.2.2.1 u h
  | succ i =>
    have hts := stepAt_noSelect rest i env sys.client hs hall
    exact ⟨(stepAt sys.client rest i env).2, by simp only [stepAt], hts.1, hts.2⟩

theorem restoreStuck_run (schedule : List (Nat × Answer)) :
    ∀ sys : System, restoreStuck sys → restoreStuck (sys.run schedule) := by
  induction schedule with
  | nil => intro sys h; exact h
  | cons x rest ih =>
    intro sys h
    obtain ⟨i, env⟩ := x
    exact ih (sys.step i env) (restoreStuck_step sys i env h)

/-- C14, at the failing input: a caller of `Send` takes the readiness token; a
`reconnect` that has just installed new handles finds the slot empty and
signals readiness; the slot is full again and the caller stands at the
restore step.  From there on, in every schedule, the caller is still at the
restore step with the slot full: the restore blocks for good, the slot
being asked to hold a second token. -/
theorem restore_blocks_after_signal :
    signalledWhileDrained.client.connectionReady = 1 ∧
    signalledWhileDrained.threads =
      [Thread.sender SendPc.restore, Thread.monitor (MonPc.call Pc.restart)] ∧
    ∀ schedule : List (Nat × Answer),
      (signalledWhileDrained.run schedule).threads.head? =
        some (Thread.sender SendPc.restore) ∧
      (signalledWhileDrained.run schedule).client.connectionReady = 1 := by
  refine ⟨by decide, by decide, ?_⟩
  intro schedule
  have h0 : restoreStuck signalledWhileDrained :=
    ⟨[Thread.monitor (MonPc.call Pc.restart)], by decide, by decide, by decide⟩
  obtain ⟨rest, hth, hs, _⟩ := restoreStuck_run schedule signalledWhileDrained h0
  exact ⟨by rw [hth]; rfl, hs⟩

/-! ## Operations after `Close` -/

/-- C21, as stated, fails for later calls: the first `Stop` gives up on its
context with two of five workers still running and returns the context
error; a second `Stop` then returns `nil` at once, the two workers still
running. -/
theorem later_Stop_returns_nil :
    MessageConsumer.Stop { onceUsed := false, stopChanClosed := false, running := 5 }
        3 true false =
      some ({ onceUsed := true, stopChanClosed := true, running := 2 }, StopResult.ctxErr) ∧
    MessageConsumer.Stop { onceUsed := true, stopChanClosed := true, running := 2 }
        0 true false =
      some ({ onceUsed := true, stopChanClosed := true, running := 2 }, StopResult.nil) := by
  decide

/-- C21, amended: the first call of `Stop` closes the stop channel and returns
as soon as all workers have exited or the context is done; when it returns
with a worker still running it returns the context error, and it returns
`nil` only when all workers have exited.  Every later call returns `nil` at
once and changes nothing, whether or not workers are still running. -/
theorem Stop_first_and_later (s : ConsumerRun) (exits : Nat) (ctxDone takeDone : Bool) :
    (s.onceUsed = false →
      ((s.running - exits = 0 ∨ ctxDone = true) →
        (MessageConsumer.Stop s exits ctxDone takeDone).isSome = true) ∧
      ∀ (s1 : ConsumerRun) (r : StopResult),
        MessageConsumer.Stop s exits ctxDone takeDone = some (s1, r) →
        s1.onceUsed = true ∧ s1.stopChanClosed = true ∧ s1.running = s.running - exits ∧
        (s1.running ≠ 0 → r = StopResult.ctxErr) ∧
        (r = StopResult.nil → s1.running = 0)) ∧
    (s.onceUsed = true →
      MessageConsumer.Stop s exits ctxDone takeDone = some (s, StopResult.nil)) := by
  refine ⟨?_, ?_⟩
  · intro hfresh
    refine ⟨?_, ?_⟩
    · intro hready
      by_cases h0 : s.running - exits = 0
      · by_cases hb : (ctxDone && !takeDone) = true <;>
          simp [MessageConsumer.Stop, hfresh, h0, hb]
      · rcases hready with h | h
        · exact absurd h h0
        · simp [MessageConsumer.Stop, hfresh, h0, h]
    · intro s1 r hres
      by_cases h0 : s.running - exits = 0
      · by_cases hb : (ctxDone && !takeDone) = true
        · simp only [MessageConsumer.Stop, hfresh, h0, hb, if_true, Bool.false_eq_true,
            if_false, Option.some.injEq, Prod.mk.injEq] at hres
          obtain ⟨rfl, rfl⟩ := hres
          simp [h0]
        · simp only [MessageConsumer.Stop, hfresh, h0, hb, if_true, Bool.false_eq_true,
            if_false, Option.some.injEq, Prod.mk.injEq] at hres
          obtain ⟨rfl, rfl⟩ := hres
          simp [h0]
      · by_cases hc : ctxDone = true
        · simp only [MessageConsumer.Stop, hfresh, h0, hc, if_true, Bool.false_eq_true,
            if_false, Option.some.injEq, Prod.mk.injEq] at hres
          obtain ⟨rfl, rfl⟩ := hres
          simp
        · simp [MessageConsumer.Stop, hfresh, h0, hc] at hres
  · intro hused
    simp [MessageConsumer.Stop, hused]

theorem Stop_first_and_later_witness :
    (MessageConsumer.Stop { onceUsed := false, stopChanClosed := false, running := 5 }
      5 false false).isSome = true ∧
    MessageConsumer.Stop { onceUsed := true, stopChanClosed := true, running := 2 }
        0 false false =
      some ({ onceUsed := true, stopChanClosed := true, running := 2 }, StopResult.nil) :=
  ⟨((Stop_first_and_later { onceUsed := false, stopChanClosed := false, running := 5 }
      5 false false).1 rfl).1 (Or.inl (by decide)),
   (Stop_first_and_later { onceUsed := true, stopChanClosed := true, running := 2 }
      0 false false).2 rfl⟩

theorem stopEach_consumers (stopFails : Nat → Bool) (cs : List Nat) :
    List.map Prod.fst (stopEach stopFails cs) = cs := by
  induction cs with
  | nil => rfl
  | cons c rest ih => simp [stopEach, ih]

theorem stopEach_results (stopFails : Nat → Bool) (cs : List Nat) :
    List.map Prod.snd (stopEach stopFails cs) = List.map stopFails cs := by
  induction cs with
  | nil => rfl
  | cons c rest ih => simp [stopEach, ih]

theorem foldl_Add_consumers (cs : List Nat) :
    ∀ g : ConsumerGroup,
      (List.foldl ConsumerGroup.Add g cs).consumers = g.consumers ++ cs := by
  induction cs with
  | nil => intro g; simp
  | cons c rest ih =>
    intro g
    simp [List.foldl_cons, ih, ConsumerGroup.Add]

/-- C22: `StopAll` calls `Stop` on the consumers of the group one after the
other, once for each entry and in the order of the group, which is the order
in which `Add` was called; the errors the calls return do not change which
calls are made. -/
theorem StopAll_stops_each_in_order (g : ConsumerGroup) (stopFails : Nat → Bool)
    (startsDone ctxDone takeDone : Bool) (added : List Nat) :
    List.map Prod.fst (g.StopAll stopFails startsDone ctxDone takeDone).1 = g.consumers ∧
    List.map Prod.snd (g.StopAll stopFails startsDone ctxDone takeDone).1 =
      List.map stopFails g.consumers ∧
    (List.foldl ConsumerGroup.Add NewConsumerGroup added).consumers = added ∧
    List.map Prod.fst ((List.foldl ConsumerGroup.Add NewConsumerGroup added).StopAll
      stopFails startsDone ctxDone takeDone).1 = added := by
  have hadd : (List.foldl ConsumerGroup.Add NewConsumerGroup added).consumers = added := by
    rw [foldl_Add_consumers]; simp [NewConsumerGroup]
  refine ⟨stopEach_consumers _ _, stopEach_results _ _, hadd, ?_⟩
  simp only [ConsumerGroup.StopAll]
  rw [stopEach_consumers, hadd]

/-! ## Building and starting consumers -/

/-- C23: `NewConsumer` replaces a zero `PrefetchCount` by 10, a zero `Workers` by
5 and a zero `MaxRetries` by 3, keeps every other value as given, and copies
queue, consumer tag and handler. -/
theorem NewConsumer_defaults (config : ConsumerConfig) :
    (NewConsumer config).1.prefetchCount =
      (if config.PrefetchCount = 0 then 10 else config.PrefetchCount) ∧
    (NewConsumer config).1.workers = (if config.Workers = 0 then 5 else config.Workers) ∧
    (NewConsumer config).1.maxRetries =
      (if config.MaxRetries = 0 then 3 else config.MaxRetries) ∧
    (NewConsumer config).1.queue = config.Queue ∧
    (NewConsumer config).1.consumerTag = config.ConsumerTag ∧
    (NewConsumer config).2 = config.Handler := by
  by_cases hp : config.PrefetchCount = 0 <;> by_cases hw : config.Workers = 0 <;>
    by_cases hm : config.MaxRetries = 0 <;> simp [NewConsumer, hp, hw, hm]

/-- C24, as stated, fails: negative values of the configuration are kept, so the
consumer built has prefetch count -1, worker count -2 and max retries -1,
and its `Start` launches no worker; and a `Start` whose `SetQos` fails
launches no worker either, whatever the worker count. -/
theorem NewConsumer_keeps_negative :
    (NewConsumer negativeConfig).1 =
      { queue := "ride_requests", consumerTag := "t", prefetchCount := -1,
        maxRetries := -1, workers := -2 } ∧
    (NewConsumer negativeConfig).1.Start true true =
      StartResult.started [] ∧
    (NewConsumer unsetConfig).1.Start false true =
      StartResult.qosFailed := by
  decide

/-- C24, amended: for every configuration without negative values the consumer
built has prefetch count at least 1, worker count at least 1 and max retries
at least 1, and a `Start` whose `SetQos` and `Consume` succeed launches
exactly that worker count of workers, numbered from 0. -/
theorem NewConsumer_bounds (config : ConsumerConfig)
    (hp : 0 ≤ config.PrefetchCount) (hw : 0 ≤ config.Workers) (hm : 0 ≤ config.MaxRetries) :
    1 ≤ (NewConsumer config).1.prefetchCount ∧
    1 ≤ (NewConsumer config).1.workers ∧
    1 ≤ (NewConsumer config).1.maxRetries ∧
    ∃ launched : List Nat,
      (NewConsumer config).1.Start true true = StartResult.started launched ∧
      launched = List.range launched.length ∧
      (launched.length : Int) = (NewConsumer config).1.workers := by
  obtain ⟨h1, h2, h3, _, _, _⟩ := NewConsumer_defaults config
  have hw1 : 1 ≤ (NewConsumer config).1.workers := by
    rw [h2]; split <;> omega
  refine ⟨by rw [h1]; split <;> omega, hw1, by rw [h3]; split <;> omega, ?_⟩
  refine ⟨List.range (NewConsumer config).1.workers.toNat, ?_, ?_, ?_⟩
  · simp [MessageConsumer.Start]
  · simp
  · simp only [List.length_range]
    omega

theorem NewConsumer_bounds_witness :
    (5 : Int) ≤ (NewConsumer unsetConfig).1.workers ∧
    1 ≤ (NewConsumer unsetConfig).1.prefetchCount :=
  ⟨by decide,
   (NewConsumer_bounds unsetConfig (by decide) (by decide) (by decide)).1⟩

/-! ## Publishing -/

/-- C25: for a payload that serialises to `bytes`, `PublishWithCorrelationID`
calls `Send` exactly once, with the exchange and routing key given, and the
message has content type `application/json`, persistent delivery mode, the
correlation id given, the generated message id and `bytes` as body; it
returns `nil` exactly when `Send` does.  When serialisation fails no `Send`
is made and an error is returned. -/
theorem PublishWithCorrelationID_once (exchange routingKey correlationID messageId : String)
    (bytes : List Nat) (now : Int) (sendOk : Bool) :
    (∃ p : Publishing,
      (PublishWithCorrelationID exchange routingKey correlationID (some bytes) messageId now
        sendOk).1 = [(exchange, routingKey, p)] ∧
      p.ContentType = "application/json" ∧ p.DeliveryMode = 2 ∧
      p.CorrelationId = correlationID ∧ p.MessageId = messageId ∧ p.Body = bytes ∧
      p.Timestamp = now) ∧
    ((PublishWithCorrelationID exchange routingKey correlationID (some bytes) messageId now
        sendOk).2 = PublishResult.nil ↔ sendOk = true) ∧
    PublishWithCorrelationID exchange routingKey correlationID none messageId now sendOk =
      ([], PublishResult.marshalFailed) := by
  refine ⟨⟨_, rfl, rfl, rfl, rfl, rfl, rfl, rfl⟩, ?_, rfl⟩
  cases sendOk <;> simp [PublishWithCorrelationID]

end Mq

namespace Server

/-! ## Sessions behind pointers -/

theorem getElem?_setSession_self (m : Manager) (ptr : Nat) (c d : Client)
    (h : m.sessions[ptr]? = some c) : (m.setSession ptr d).sessions[ptr]? = some d := by
  have hlt : ptr < m.sessions.length := by
    by_contra hge
    rw [List.getElem?_eq_none (by omega)] at h
    cases h
  simp [Manager.setSession, List.getElem?_set, hlt]

theorem getElem?_setSession_ne (m : Manager) (ptr q : Nat) (d : Client) (h : q ≠ ptr) :
    (m.setSession ptr d).sessions[q]? = m.sessions[q]? := by
  simp [Manager.setSession, List.getElem?_set, Ne.symm h]

theorem Outcome.andThen_state {α : Type} (P : α → Prop) (o : Outcome α) (f : α → Outcome α)
    (ho : P o.state) (hf : ∀ a, P a → P (f a).state) : P (o.andThen f).state := by
  cases o with
  | returned a => exact hf a ho
  | blocked a => exact ho
  | panicked a => exact ho

/-! ## `Client.close` -/

/-- A session closed for the first time by one of its pumps, the mutex being
free: both channels are closed, the socket is closed once, the identity is
taken out of the registry and the guard is used up. -/
theorem Client.close_first (m : Manager) (ptr : Nat) (c : Client)
    (hc : m.sessions[ptr]? = some c) (hfree : m.muHeld = false)
    (hfresh : c.closeOnce = Once.fresh) (ho : c.outboundClosed = false)
    (hi : c.inboundClosed = false) :
    Client.close m ptr =
      Outcome.returned
        { m with
          sessions := m.sessions.set ptr
            { c with outboundClosed := true, inboundClosed := true,
                     socketCloses := c.socketCloses + 1, closeOnce := Once.done }
          clients := Registry.erase m.clients c.id } := by
  have hlt : ptr < m.sessions.length := by
    by_contra hge
    rw [List.getElem?_eq_none (by omega)] at hc
    cases hc
  simp [Client.close, hc, hfresh, enterClose, closeOutbound, closeInbound, closeSocket,
    removeClient, leaveClose, Outcome.andThen, Manager.setSession, List.getElem?_set, hlt,
    ho, hi, hfree]

/-- A call of `close` on a session whose guard is used up changes nothing. -/
theorem Client.close_again (m : Manager) (ptr : Nat) (c : Client)
    (hc : m.sessions[ptr]? = some c) (hdone : c.closeOnce = Once.done) :
    Client.close m ptr = Outcome.returned m := by
  simp [Client.close, hc, hdone]

/-- A session closed for the first time while the mutex is held: the channels
and the socket are closed and the call waits in `removeClient`, the session
still registered and the guard still in use. -/
theorem Client.close_under_lock (m : Manager) (ptr : Nat) (c : Client)
    (hc : m.sessions[ptr]? = some c) (hheld : m.muHeld = true)
    (hfresh : c.closeOnce = Once.fresh) (ho : c.outboundClosed = false)
    (hi : c.inboundClosed = false) :
    Client.close m ptr =
      Outcome.blocked
        { m with
          sessions := m.sessions.set ptr
            { c with outboundClosed := true, inboundClosed := true,
                     socketCloses := c.socketCloses + 1, closeOnce := Once.running } } := by
  have hlt : ptr < m.sessions.length := by
    by_contra hge
    rw [List.getElem?_eq_none (by omega)] at hc
    cases hc
  simp [Client.close, hc, hfresh, enterClose, closeOutbound, closeInbound, closeSocket,
    removeClient, Outcome.andThen, Manager.setSession, List.getElem?_set, hlt,
    ho, hi, hheld]

/-! ## `Shutdown` -/

/-- With a live session registered, `Shutdown` never gets past its loop: it
closes the channels and the socket of the first session it visits and then
waits in `removeClient` for the mutex it holds itself; the registry is as it
was and the inbound routing channel is not closed. -/
theorem Shutdown_blocks (m : Manager) (id ptr : Nat) (rest : List (Nat × Nat)) (c : Client)
    (honce : m.shutdownOnce = Once.fresh) (hfree : m.muHeld = false)
    (hreg : m.clients = (id, ptr) :: rest) (hc : m.sessions[ptr]? = some c)
    (hfresh : c.closeOnce = Once.fresh) (ho : c.outboundClosed = false)
    (hi : c.inboundClosed = false) :
    Shutdown m =
      Outcome.blocked
        { m with
          sessions := m.sessions.set ptr
            { c with outboundClosed := true, inboundClosed := true,
                     socketCloses := c.socketCloses + 1, closeOnce := Once.running }
          muHeld := true, cancelled := true, shutdownOnce := Once.running } := by
  obtain ⟨sessions, clients, muHeld, cancelled, readClosed, shutdownOnce, tasks⟩ := m
  simp only at honce hfree hreg hc
  subst honce hfree hreg
  have hclose := Client.close_under_lock
    { sessions := sessions, clients := (id, ptr) :: rest, muHeld := true, cancelled := true,
      readClosed := readClosed, shutdownOnce := Once.running, tasks := tasks } ptr c
    hc rfl hfresh ho hi
  simp only [Shutdown, closeAll, Registry.lookup, if_true, Bool.false_eq_true, if_false]
  rw [hclose]

/-- With an empty registry and no goroutine of `m.wg` left, `Shutdown` returns,
having cancelled the context and closed the inbound routing channel. -/
theorem Shutdown_empty (m : Manager) (honce : m.shutdownOnce = Once.fresh)
    (hfree : m.muHeld = false) (hreg : m.clients = []) (hread : m.readClosed = false)
    (htasks : m.tasks = 0) :
    Shutdown m =
      Outcome.returned
        { m with cancelled := true, readClosed := true, shutdownOnce := Once.done } := by
  simp [Shutdown, honce, hfree, hreg, closeAll, hread, htasks]

/-- With an empty registry and a goroutine of `m.wg` that has not ended,
`Shutdown` waits at `m.wg.Wait()`: the inbound routing channel stays open and
the guard stays taken. -/
theorem Shutdown_waits_for_goroutines (m : Manager) (honce : m.shutdownOnce = Once.fresh)
    (hfree : m.muHeld = false) (hreg : m.clients = []) (htasks : m.tasks ≠ 0) :
    Shutdown m =
      Outcome.blocked { m with cancelled := true, shutdownOnce := Once.running } := by
  obtain ⟨sessions, clients, muHeld, cancelled, readClosed, shutdownOnce, tasks⟩ := m
  simp only at honce hfree hreg htasks
  subst honce hfree hreg
  simp [Shutdown, closeAll, htasks]

/-- C16, at the failing input: on a manager with one registered session the
first `Shutdown` does not return.  It cancels the context, takes the mutex,
closes the channels and the socket of the session and then waits in
`removeClient` for the mutex it holds: the session stays registered and the
inbound routing channel stays open.  In the state reached every call that
needs the mutex or one of the two guards waits as well and changes nothing,
so nothing can release the wait. -/
theorem Shutdown_deadlocks_on_session :
    Shutdown oneSession =
      Outcome.blocked
        { sessions :=
            [{ NewClient 42 5 with outboundClosed := true, inboundClosed := true,
                                   socketCloses := 1, closeOnce := Once.running }]
          clients := [(42, 0)], muHeld := true, cancelled := true, readClosed := false,
          shutdownOnce := Once.running, tasks := 3 } ∧
    removeClient (Shutdown oneSession).state 42 = Outcome.blocked (Shutdown oneSession).state ∧
    addClient (Shutdown oneSession).state 43 1 = Outcome.blocked (Shutdown oneSession).state ∧
    Client.close (Shutdown oneSession).state 0 = Outcome.blocked (Shutdown oneSession).state ∧
    Shutdown (Shutdown oneSession).state = Outcome.blocked (Shutdown oneSession).state ∧
    StartWrite.route (Shutdown oneSession).state { Payload := [1], ConsumerID := 42 } =
      Outcome.blocked (Shutdown oneSession).state := by
  decide

/-! ## Repeated `Shutdown` -/

theorem removeClient_shutdownOnce (m : Manager) (id : Nat) :
    (removeClient m id).state.shutdownOnce = m.shutdownOnce := by
  by_cases h : m.muHeld <;> simp [removeClient, h, Outcome.state]

theorem Client.close_shutdownOnce (m : Manager) (ptr : Nat) :
    (Client.close m ptr).state.shutdownOnce = m.shutdownOnce := by
  unfold Client.close
  cases hc : m.sessions[ptr]? with
  | none => rfl
  | some c =>
    simp only []
    cases hon : c.closeOnce with
    | done => rfl
    | running => rfl
    | fresh =>
      simp only []
      have h0 : (enterClose m ptr).shutdownOnce = m.shutdownOnce := by
        simp [enterClose, hc, Manager.setSession]
      have hprim : ∀ (f : Manager → Nat → Outcome Manager),
          (f = closeOutbound ∨ f = closeInbound ∨ f = closeSocket ∨ f = leaveClose) →
          ∀ a : Manager, (f a ptr).state.shutdownOnce = a.shutdownOnce := by
        intro f hf a
        rcases hf with h | h | h | h <;> subst h
        · unfold closeOutbound
          cases a.sessions[ptr]? with
          | none => rfl
          | some d => by_cases hd : d.outboundClosed <;> simp [hd, Outcome.state, Manager.setSession]
        · unfold closeInbound
          cases a.sessions[ptr]? with
          | none => rfl
          | some d => by_cases hd : d.inboundClosed <;> simp [hd, Outcome.state, Manager.setSession]
        · unfold closeSocket
          cases a.sessions[ptr]? with
          | none => rfl
          | some d => simp [Outcome.state, Manager.setSession]
        · unfold leaveClose
          cases a.sessions[ptr]? with
          | none => rfl
          | some d => simp [Outcome.state, Manager.setSession]
      refine @Outcome.andThen_state Manager (fun a => a.shutdownOnce = m.shutdownOnce) _ _ ?_ ?_
      · refine @Outcome.andThen_state Manager (fun a => a.shutdownOnce = m.shutdownOnce)
          _ _ ?_ ?_
        · refine @Outcome.andThen_state Manager (fun a => a.shutdownOnce = m.shutdownOnce)
            _ _ ?_ ?_
          · refine @Outcome.andThen_state Manager (fun a => a.shutdownOnce = m.shutdownOnce)
              _ _ ?_ ?_
            · show (closeOutbound (enterClose m ptr) ptr).state.shutdownOnce = m.shutdownOnce
              rw [hprim closeOutbound (Or.inl rfl), h0]
            · intro a ha
              show (closeInbound a ptr).state.shutdownOnce = m.shutdownOnce
              rw [hprim closeInbound (Or.inr (Or.inl rfl)), ha]
          · intro a ha
            show (closeSocket a ptr).state.shutdownOnce = m.shutdownOnce
            rw [hprim closeSocket (Or.inr (Or.inr (Or.inl rfl))), ha]
        · intro a ha
          show (removeClient a c.id).state.shutdownOnce = m.shutdownOnce
          rw [removeClient_shutdownOnce, ha]
      · intro a ha
        show (leaveClose a ptr).state.shutdownOnce = m.shutdownOnce
        rw [hprim leaveClose (Or.inr (Or.inr (Or.inr rfl))), ha]

theorem closeAll_shutdownOnce (entries : List (Nat × Nat)) :
    ∀ m : Manager, (closeAll m entries).state.shutdownOnce = m.shutdownOnce := by
  induction entries with
  | nil => intro m; rfl
  | cons e rest ih =>
    intro m
    obtain ⟨id, ptr⟩ := e
    unfold closeAll
    by_cases hl : Registry.lookup m.clients id = some ptr
    · simp only [hl, if_true]
      have hcl := Client.close_shutdownOnce m ptr
      cases hres : Client.close m ptr with
      | returned m1 =>
        rw [hres] at hcl
        simp only []
        rw [ih m1]; exact hcl
      | blocked m1 => rw [hres] at hcl; exact hcl
      | panicked m1 => rw [hres] at hcl; exact hcl
    · simp only [hl, if_false]
      exact ih m

theorem Shutdown_uses_once (m : Manager) : (Shutdown m).state.shutdownOnce ≠ Once.fresh := by
  unfold Shutdown
  cases hon : m.shutdownOnce with
  | done => simp [Outcome.state, hon]
  | running => simp [Outcome.state, hon]
  | fresh =>
    simp only []
    by_cases hmu : m.muHeld
    · simp [hmu, Outcome.state]
    · simp only [hmu, Bool.false_eq_true, if_false]
      have hall := closeAll_shutdownOnce m.clients
        { m with shutdownOnce := Once.running, cancelled := true, muHeld := true }
      cases hres : closeAll
          { m with shutdownOnce := Once.running, cancelled := true, muHeld := true }
          m.clients with
      | returned m2 =>
        simp only []
        rw [hres] at hall
        simp only [Outcome.state] at hall
        by_cases ht : m2.tasks = 0
        · by_cases hr : m2.readClosed
          · simp [ht, hr, Outcome.state, hall]
          · simp [ht, hr, Outcome.state]
        · simp [ht, Outcome.state, hall]
      | blocked m2 =>
        rw [hres] at hall
        simp only [Outcome.state] at hall ⊢
        rw [hall]; simp
      | panicked m2 =>
        rw [hres] at hall
        simp only [Outcome.state] at hall ⊢
        rw [hall]; simp

theorem Shutdown_used (m : Manager) (h : m.shutdownOnce ≠ Once.fresh) :
    (Shutdown m).state = m ∧ ∀ m1 : Manager, Shutdown m ≠ Outcome.panicked m1 := by
  unfold Shutdown
  cases hon : m.shutdownOnce with
  | fresh => exact absurd hon h
  | done => simp [Outcome.state]
  | running => simp [Outcome.state]

/-- C17: a call of `Shutdown` on a manager whose guard has been taken by an
earlier call changes nothing (it cancels nothing, closes no session, does not
close the inbound routing channel) and does not panic; every call takes the
guard; so after any number of calls the manager is as the first call left
it. -/
theorem Shutdown_only_first :
    (∀ m : Manager, m.shutdownOnce ≠ Once.fresh →
      (Shutdown m).state = m ∧ ∀ m1 : Manager, Shutdown m ≠ Outcome.panicked m1) ∧
    (∀ m : Manager, (Shutdown m).state.shutdownOnce ≠ Once.fresh) ∧
    (∀ (m : Manager) (n : Nat), shutdownTimes (n + 1) m = (Shutdown m).state) := by
  refine ⟨Shutdown_used, Shutdown_uses_once, ?_⟩
  intro m n
  induction n with
  | zero => rfl
  | succ n ih =>
    have hrec : shutdownTimes (n + 1 + 1) m = shutdownTimes (n + 1) (Shutdown m).state := rfl
    have hone : ∀ k : Nat, ∀ a : Manager, a.shutdownOnce ≠ Once.fresh →
        shutdownTimes k a = a := by
      intro k
      induction k with
      | zero => intro a _; rfl
      | succ k ihk =>
        intro a ha
        have : shutdownTimes (k + 1) a = shutdownTimes k (Shutdown a).state := rfl
        rw [this, (Shutdown_used a ha).1]
        exact ihk a ha
    rw [hrec]
    exact hone (n + 1) _ (Shutdown_uses_once m)

theorem Shutdown_only_first_witness :
    (Shutdown NewManager).state.shutdownOnce ≠ Once.fresh ∧
    (Shutdown (Shutdown NewManager).state).state = (Shutdown NewManager).state ∧
    shutdownTimes 3 oneSession = (Shutdown oneSession).state :=
  ⟨Shutdown_only_first.2.1 NewManager,
   (Shutdown_only_first.1 (Shutdown NewManager).state (by decide)).1,
   Shutdown_only_first.2.2 oneSession 2⟩

/-! ## Exactly-once close -/

theorem closeTimes_fixed (m : Manager) (ptr : Nat) (h : (Client.close m ptr).state = m) :
    ∀ n : Nat, closeTimes n m ptr = m := by
  intro n
  induction n with
  | zero => rfl
  | succ n ih =>
    have hrec : closeTimes (n + 1) m ptr = closeTimes n (Client.close m ptr).state ptr := rfl
    rw [hrec, h, ih]

/-- C18, at the failing input: `Shutdown` is the first to call `close` on the
session of `oneSession`.  The call closes both channels and the socket once
and then waits in `removeClient`, so the session is not taken out of the
registry; every later call of `close`, from either pump, waits at the guard
and changes nothing, however many follow.  When a pump calls `close` first,
the channels and the socket are closed once, the session is deregistered, and
later calls change nothing. -/
theorem close_under_Shutdown_keeps_session :
    (Shutdown oneSession).state.sessions =
      [{ NewClient 42 5 with outboundClosed := true, inboundClosed := true,
                             socketCloses := 1, closeOnce := Once.running }] ∧
    Registry.lookup (Shutdown oneSession).state.clients 42 = some 0 ∧
    Client.close (Shutdown oneSession).state 0 = Outcome.blocked (Shutdown oneSession).state ∧
    (∀ n : Nat, closeTimes n (Shutdown oneSession).state 0 = (Shutdown oneSession).state) ∧
    Client.close oneSession 0 =
      Outcome.returned
        { oneSession with
          sessions := [{ NewClient 42 5 with outboundClosed := true, inboundClosed := true,
                                             socketCloses := 1, closeOnce := Once.done }]
          clients := [] } ∧
    (∀ n : Nat, closeTimes (n + 1) oneSession 0 = (Client.close oneSession 0).state) := by
  refine ⟨by decide, by decide, by decide, ?_, by decide, ?_⟩
  · exact closeTimes_fixed _ 0 (by decide)
  · intro n
    exact closeTimes_fixed (Client.close oneSession 0).state 0 (by decide) n

/-! ## Outbound routing -/

/-- With the mutex free and the target's `outbound` open, the router hands the
payload to the target's write pump when that pump is waiting and drops it
otherwise; a message for an unregistered identity is dropped; the router
returns in each case, and no other session and no registry entry changes. -/
theorem route_delivers_or_drops (m : Manager) (message : ResponseWs)
    (hfree : m.muHeld = false) :
    (Registry.lookup m.clients message.ConsumerID = none →
      StartWrite.route m message = Outcome.returned m) ∧
    (∀ (ptr : Nat) (c : Client),
      Registry.lookup m.clients message.ConsumerID = some ptr →
      m.sessions[ptr]? = some c → c.outboundClosed = false →
      (c.receiverWaiting = false → StartWrite.route m message = Outcome.returned m) ∧
      (c.receiverWaiting = true →
        StartWrite.route m message =
          Outcome.returned (m.setSession ptr
            { c with receiverWaiting := false,
                     delivered := c.delivered ++ [message.Payload] }) ∧
        (StartWrite.route m message).state.clients = m.clients ∧
        ∀ q : Nat, q ≠ ptr →
          (StartWrite.route m message).state.sessions[q]? = m.sessions[q]?)) := by
  refine ⟨?_, ?_⟩
  · intro hl
    simp [StartWrite.route, hfree, hl]
  · intro ptr c hl hc ho
    refine ⟨?_, ?_⟩
    · intro hw
      simp [StartWrite.route, hfree, hl, hc, ho, hw]
    · intro hw
      have hr : StartWrite.route m message =
          Outcome.returned (m.setSession ptr
            { c with receiverWaiting := false,
                     delivered := c.delivered ++ [message.Payload] }) := by
        simp [StartWrite.route, hfree, hl, hc, ho, hw]
      refine ⟨hr, ?_, ?_⟩
      · rw [hr]; rfl
      · intro q hq
        rw [hr]
        exact getElem?_setSession_ne m ptr q _ hq

/-- C19, at the failing input: the session of user 42 has entered `close` from
one of its pumps and has closed `outbound`, and is still registered; the
mutex is free.  The router takes a message for user 42, finds the session in
the registry and sends on the closed channel: it panics instead of dropping
the message.  In the state a deadlocked `Shutdown` leaves, the router waits
for the mutex instead. -/
theorem route_panics_on_closing_session (payload : List Nat) :
    closingSession.muHeld = false ∧
    Registry.lookup closingSession.clients 42 = some 0 ∧
    closingSession.sessions =
      [{ NewClient 42 5 with outboundClosed := true, closeOnce := Once.running }] ∧
    StartWrite.route closingSession { Payload := payload, ConsumerID := 42 } =
      Outcome.panicked closingSession ∧
    StartWrite.route (Shutdown oneSession).state { Payload := payload, ConsumerID := 42 } =
      Outcome.blocked (Shutdown oneSession).state := by
  refine ⟨by decide, by decide, by decide, ?_, ?_⟩
  · rfl
  · rfl

/-! ## Upgrade without identity -/

/-- C20, at the failing input: for a request without verified identity whose
handshake is in order, `ServeWS` first completes the protocol upgrade and
only then writes status 401 and "unauthorized" and returns; no session is
created, the registry is unchanged and no goroutine is started, but the
upgraded connection is neither refused nor closed. -/
theorem ServeWS_upgrades_before_rejecting (m : Manager) (conn : Nat) :
    ServeWS m (some conn) none =
      ([ServeEffect.upgraded conn, ServeEffect.writeHeader 401,
        ServeEffect.write "unauthorized"], Outcome.returned m) := by
  rfl

/-- With sessions of two different users, closing the first leaves the second
in the registry. -/
theorem close_keeps_other_identity :
    liveSessions (Client.close twoIdentities 0).state = [1] ∧
    registrySessions (Client.close twoIdentities 0).state = [1] := by
  decide

/-- C29 fails on the code: after two registrations under the same identity
both sessions are live but the registry holds only the second (the first is
hidden); closing the first returns and deletes the entry of the identity, so
the second session, still live, is no longer in the registry. -/
theorem close_removes_same_identity_session :
    liveSessions sameIdentityTwice = [0, 1] ∧
    registrySessions sameIdentityTwice = [1] ∧
    Client.close sameIdentityTwice 0 =
      Outcome.returned (Client.close sameIdentityTwice 0).state ∧
    liveSessions (Client.close sameIdentityTwice 0).state = [1] ∧
    registrySessions (Client.close sameIdentityTwice 0).state = [] := by
  decide

end Server

namespace InitMq

/-- After the end of a run no call is left, so nothing is to be checked there. -/
theorem boundAfterDeclared_of_length_le (ops : List TopologyOp) (i : Nat)
    (h : ops.length ≤ i) : boundAfterDeclared ops i := by
  unfold boundAfterDeclared
  rw [List.getElem?_eq_none h]
  trivial

/-- C26: when every broker call succeeds, `initializeTopology` returns no error
after 4 exchange declarations, 8 queue declarations and 8 bindings; the
exchanges, all durable, are those of the exchange table; the queues, all
durable, are those of the queue table with its dead-letter column (dlx for the
seven work queues, none for dead_letters); the bindings are those of the queue
table (dead_letters to dlx with key #); and every binding comes after the
declaration of its queue and of its exchange. -/
theorem initializeTopology_declares_table :
    (initializeTopology (fun _ => true)).2 = none ∧
    countOps (initializeTopology (fun _ => true)).1 = (4, 8, 8) ∧
    declaredExchanges (initializeTopology (fun _ => true)).1 = specExchanges ∧
    declaredQueues (initializeTopology (fun _ => true)).1 =
      specQueues.map (fun row => (row.1, row.2.2.2)) ∧
    createdBindings (initializeTopology (fun _ => true)).1 =
      specQueues.map (fun row => (row.1, row.2.1, row.2.2.1)) ∧
    ∀ i, boundAfterDeclared (initializeTopology (fun _ => true)).1 i := by
  refine ⟨by decide, by decide, by decide, by decide, by decide, ?_⟩
  intro i
  by_cases h : i < 20
  · have hall : ∀ j, j < 20 →
        boundAfterDeclared (initializeTopology (fun _ => true)).1 j := by decide
    exact hall i h
  · exact boundAfterDeclared_of_length_le _ i (by
      have hlen : (initializeTopology (fun _ => true)).1.length = 20 := by decide
      omega)

end InitMq

namespace Ride

/-- A coordinate that is a number is below a bound as the rationals say. -/
theorem F64.within_iff (x : F64) (lo hi : ℚ) (h : x ≠ F64.nan) :
    F64.within x lo hi ↔
      (F64.lt x (F64.num lo) || F64.gt x (F64.num hi)) = false := by
  cases x with
  | nan => exact absurd rfl h
  | negInf => simp [F64.within, F64.lt, F64.gt]
  | posInf => simp [F64.within, F64.lt, F64.gt]
  | num q => simp [F64.within, F64.lt, F64.gt]

/-- On coordinates that are numbers, `==` is equality. -/
theorem F64.eq_iff (x y : F64) (hx : x ≠ F64.nan) : F64.eq x y = true ↔ x = y := by
  cases x <;> cases y <;> simp_all [F64.eq]

/-- C28, as stated, fails: with a pickup latitude that is not a number both
comparisons of the range check are false, so `Validate` returns nil although
the latitude does not lie in [-90, 90] and the first failing check of the
specification is the one of the pickup latitude. -/
theorem Validate_accepts_nan_latitude :
    nanRequest.Validate = none ∧
    ¬ F64.within nanRequest.PickupLat (-90) 90 ∧
    validateSpec nanRequest = some "pickup_latitude must be between -90 and 90" := by
  refine ⟨?_, ?_, ?_⟩
  · simp [CreateRideRequest.Validate, nanRequest, almatyRequest, validTypes, F64.lt, F64.gt,
      F64.eq]
    norm_num
  · simp [nanRequest, F64.within]
  · simp [validateSpec, firstFailing, nanRequest, almatyRequest, F64.within]

/-- C28, amended: when none of the four coordinates is not-a-number, `Validate`
returns the error of the first failing check in the order vehicle type, pickup
latitude, pickup longitude, destination latitude, destination longitude,
pickup address, destination address, identical points; and it returns nil
exactly when all eight checks pass. -/
theorem Validate_first_failing_check (r : CreateRideRequest)
    (h1 : r.PickupLat ≠ F64.nan) (h2 : r.PickupLng ≠ F64.nan)
    (h3 : r.DestLat ≠ F64.nan) (h4 : r.DestLng ≠ F64.nan) :
    r.Validate = validateSpec r ∧
    (r.Validate = none ↔
      (r.VehicleType ∈ ["ECONOMY", "PREMIUM", "XL"] ∧
       F64.within r.PickupLat (-90) 90 ∧ F64.within r.PickupLng (-180) 180 ∧
       F64.within r.DestLat (-90) 90 ∧ F64.within r.DestLng (-180) 180 ∧
       r.PickupAddress ≠ "" ∧ r.DestAddress ≠ "" ∧
       ¬ (r.PickupLat = r.DestLat ∧ r.PickupLng = r.DestLng))) := by
  have e1 := F64.within_iff r.PickupLat (-90) 90 h1
  have e2 := F64.within_iff r.PickupLng (-180) 180 h2
  have e3 := F64.within_iff r.DestLat (-90) 90 h3
  have e4 := F64.within_iff r.DestLng (-180) 180 h4
  have e5 := F64.eq_iff r.PickupLat r.DestLat h1
  have e6 := F64.eq_iff r.PickupLng r.DestLng h2
  have hv : validTypes r.VehicleType = true ↔ r.VehicleType ∈ ["ECONOMY", "PREMIUM", "XL"] := by
    simp [validTypes, or_assoc]
  have hspec : r.Validate = validateSpec r := by
    unfold CreateRideRequest.Validate validateSpec
    simp only [firstFailing]
    by_cases c0 : validTypes r.VehicleType = true
    · have c0m := hv.1 c0
      by_cases c1 : F64.within r.PickupLat (-90) 90
      · have d1 := e1.1 c1
        by_cases c2 : F64.within r.PickupLng (-180) 180
        · have d2 := e2.1 c2
          by_cases c3 : F64.within r.DestLat (-90) 90
          · have d3 := e3.1 c3
            by_cases c4 : F64.within r.DestLng (-180) 180
            · have d4 := e4.1 c4
              by_cases c5 : r.PickupAddress = ""
              · simp [c0, c0m, c1, d1, c2, d2, c3, d3, c4, d4, c5]
              · by_cases c6 : r.DestAddress = ""
                · simp [c0, c0m, c1, d1, c2, d2, c3, d3, c4, d4, c5, c6]
                · by_cases c7 : r.PickupLat = r.DestLat ∧ r.PickupLng = r.DestLng
                  · have d7 : (F64.eq r.PickupLat r.DestLat && F64.eq r.PickupLng r.DestLng)
                        = true := by
                      simp [e5.2 c7.1, e6.2 c7.2]
                    have k5 : F64.eq r.DestLat r.DestLat = true := (F64.eq_iff _ _ h3).2 rfl
                    have k6 : F64.eq r.DestLng r.DestLng = true := (F64.eq_iff _ _ h4).2 rfl
                    simp [c0, c0m, c1, d1, c2, d2, c3, d3, c4, d4, c5, c6, c7, d7, k5, k6]
                  · have d7 : (F64.eq r.PickupLat r.DestLat && F64.eq r.PickupLng r.DestLng)
                        = false := by
                      rw [Bool.eq_false_iff]
                      intro h
                      rw [Bool.and_eq_true] at h
                      exact c7 ⟨e5.1 h.1, e6.1 h.2⟩
                    simp [c0, c0m, c1, d1, c2, d2, c3, d3, c4, d4, c5, c6, c7, d7]
            · have d4 : (F64.lt r.DestLng (F64.num (-180)) || F64.gt r.DestLng (F64.num 180))
                  = true := by
                rw [← Bool.not_eq_false]
                exact fun h => c4 (e4.2 h)
              simp [c0, c0m, c1, d1, c2, d2, c3, d3, c4, d4]
          · have d3 : (F64.lt r.DestLat (F64.num (-90)) || F64.gt r.DestLat (F64.num 90))
                = true := by
              rw [← Bool.not_eq_false]
              exact fun h => c3 (e3.2 h)
            simp [c0, c0m, c1, d1, c2, d2, c3, d3]
        · have d2 : (F64.lt r.PickupLng (F64.num (-180)) || F64.gt r.PickupLng (F64.num 180))
              = true := by
            rw [← Bool.not_eq_false]
            exact fun h => c2 (e2.2 h)
          simp [c0, c0m, c1, d1, c2, d2]
      · have d1 : (F64.lt r.PickupLat (F64.num (-90)) || F64.gt r.PickupLat (F64.num 90))
            = true := by
          rw [← Bool.not_eq_false]
          exact fun h => c1 (e1.2 h)
        simp [c0, c0m, c1, d1]
    · have c0m : ¬ r.VehicleType ∈ ["ECONOMY", "PREMIUM", "XL"] := fun h => c0 (hv.2 h)
      simp [c0, c0m]
  refine ⟨hspec, ?_⟩
  rw [hspec]
  unfold validateSpec
  simp only [firstFailing]
  by_cases c0 : r.VehicleType ∈ ["ECONOMY", "PREMIUM", "XL"] <;>
  by_cases c1 : F64.within r.PickupLat (-90) 90 <;>
  by_cases c2 : F64.within r.PickupLng (-180) 180 <;>
  by_cases c3 : F64.within r.DestLat (-90) 90 <;>
  by_cases c4 : F64.within r.DestLng (-180) 180 <;>
  by_cases c5 : r.PickupAddress = "" <;>
  by_cases c6 : r.DestAddress = "" <;>
  by_cases c7 : r.PickupLat = r.DestLat ∧ r.PickupLng = r.DestLng <;>
  simp [c0, c1, c2, c3, c4, c5, c6, c7]

/-- The amended C28 at a request of the handler tests: it is accepted. -/
theorem Validate_first_failing_check_witness :
    almatyRequest.PickupLat ≠ F64.nan ∧ almatyRequest.Validate = validateSpec almatyRequest := by
  have h1 : almatyRequest.PickupLat ≠ F64.nan := by simp [almatyRequest]
  have h2 : almatyRequest.PickupLng ≠ F64.nan := by simp [almatyRequest]
  have h3 : almatyRequest.DestLat ≠ F64.nan := by simp [almatyRequest]
  have h4 : almatyRequest.DestLng ≠ F64.nan := by simp [almatyRequest]
  exact ⟨h1, (Validate_first_failing_check almatyRequest h1 h2 h3 h4).1⟩

/-! ## Fares -/

end Ride

namespace Uuid

/-- A digit written by `%x` is read back as its value. -/
theorem hexValue_hexDigit (n : Nat) (h : n < 16) : hexValue (hexDigit n) = some n := by
  interval_cases n <;> decide

/-- A digit written by `%x` is in the class `[0-9a-f]`. -/
theorem isLowerHex_hexDigit (n : Nat) (h : n < 16) : isLowerHex (hexDigit n) = true := by
  interval_cases n <;> decide

/-- A digit written by `%x` is not a dash. -/
theorem hexDigit_ne_dash (n : Nat) (h : n < 16) : (hexDigit n != dash) = true := by
  interval_cases n <;> decide

/-- The two digits of a byte are read back as the byte. -/
theorem ParseUint_hexDigit (b : Fin 256) :
    ParseUint (hexDigit (b.val / 16)) (hexDigit (b.val % 16)) = some b.val := by
  have h1 : b.val / 16 < 16 := by omega
  have h2 : b.val % 16 < 16 := by omega
  unfold ParseUint
  rw [hexValue_hexDigit _ h1, hexValue_hexDigit _ h2]
  simp only [Option.some.injEq]
  omega

/-- The conversion `byte(v)` of the value of a byte gives the byte. -/
theorem ofNat_val (b : Fin 256) : (Fin.ofNat b.val : Fin 256) = b := by
  apply Fin.ext
  simp [Fin.ofNat, Nat.mod_eq_of_lt b.isLt]

/-- Removing the dashes leaves the digits of `%x` as they are. -/
theorem filter_hex (bs : List (Fin 256)) :
    (hex bs).filter (fun c => c != dash) = hex bs := by
  induction bs with
  | nil => rfl
  | cons b rest ih =>
    have h1 : b.val / 16 < 16 := by omega
    have h2 : b.val % 16 < 16 := by omega
    simp only [hex, List.filter_cons, hexDigit_ne_dash _ h1, hexDigit_ne_dash _ h2, ih,
      if_true]

/-- The verb `%x` writes two digits per byte. -/
theorem length_hex (bs : List (Fin 256)) : (hex bs).length = 2 * bs.length := by
  induction bs with
  | nil => rfl
  | cons b rest ih => simp only [hex, List.length_cons, ih]; omega

/-- The verb `%x` on consecutive slices writes the digits of the whole. -/
theorem hex_append (as bs : List (Fin 256)) : hex (as ++ bs) = hex as ++ hex bs := by
  induction as with
  | nil => rfl
  | cons a rest ih =>
    show hex (a :: (rest ++ bs)) = hex (a :: rest) ++ hex bs
    simp only [hex, List.cons_append, ih]

/-- The loop of `FromString` reads the digits of `%x` back, byte by byte. -/
theorem parseBytes_hex (bs : List (Fin 256)) (i : Nat) :
    parseBytes bs.length i (hex bs) = Except.ok bs := by
  induction bs generalizing i with
  | nil => rfl
  | cons b rest ih =>
    simp only [List.length_cons, hex, parseBytes, ParseUint_hexDigit, ih, ofNat_val]

/-- The piece `[0-9a-f]{n}` matches the digits of `n / 2` bytes. -/
theorem matchHex_hex (bs : List (Fin 256)) (rest : List Nat) :
    matchHex (2 * bs.length) (hex bs ++ rest) = some rest := by
  induction bs with
  | nil => rfl
  | cons b tail ih =>
    have h1 : b.val / 16 < 16 := by omega
    have h2 : b.val % 16 < 16 := by omega
    have hlen : 2 * (b :: tail).length = 2 * tail.length + 1 + 1 := by
      simp only [List.length_cons]; omega
    rw [hlen]
    show matchHex (2 * tail.length + 1 + 1)
      (hexDigit (b.val / 16) :: hexDigit (b.val % 16) :: (hex tail ++ rest)) = some rest
    simp only [matchHex, isLowerHex_hexDigit _ h1, isLowerHex_hexDigit _ h2, if_true, ih]

/-- A list of 16 bytes is its five slices, one after the other. -/
theorem slices_append (u : UUID) :
    slice u 0 4 ++ (slice u 4 6 ++ (slice u 6 8 ++ (slice u 8 10 ++ u.drop 10))) = u := by
  unfold slice
  rw [List.drop_zero]
  have e1 : List.take (4 - 0) u ++ List.drop 4 u = u := List.take_append_drop 4 u
  have e2 : List.take (6 - 4) (List.drop 4 u) ++ List.drop 6 u = List.drop 4 u := by
    have := List.take_append_drop 2 (List.drop 4 u)
    rwa [List.drop_drop] at this
  have e3 : List.take (8 - 6) (List.drop 6 u) ++ List.drop 8 u = List.drop 6 u := by
    have := List.take_append_drop 2 (List.drop 6 u)
    rwa [List.drop_drop] at this
  have e4 : List.take (10 - 8) (List.drop 8 u) ++ List.drop 10 u = List.drop 8 u := by
    have := List.take_append_drop 2 (List.drop 8 u)
    rwa [List.drop_drop] at this
  rw [e4, e3, e2, e1]

/-- Lengths of the five slices of a list of 16 bytes. -/
theorem slice_lengths (u : UUID) (h : u.length = 16) :
    (slice u 0 4).length = 4 ∧ (slice u 4 6).length = 2 ∧ (slice u 6 8).length = 2 ∧
    (slice u 8 10).length = 2 ∧ (u.drop 10).length = 6 := by
  unfold slice
  simp only [List.length_take, List.length_drop, h]
  decide

/-- Without its dashes, the text of a UUID is the digits of its bytes. -/
theorem filter_String (u : UUID) :
    (UUID.String u).filter (fun c => c != dash) = hex u := by
  have hd : (dash != dash) = false := by decide
  unfold UUID.String
  simp only [List.filter_append, List.filter_cons, filter_hex, hd, Bool.false_eq_true,
    if_false]
  rw [← hex_append, ← hex_append, ← hex_append, ← hex_append, slices_append u]

/-- C30: for every UUID `u` (16 bytes), `FromString` on the text of `u` returns
`u` without error, `Validate` on it returns nil, and the text has 36 bytes that
match the pattern of 8, 4, 4, 4 and 12 lower-case hexadecimal digits separated
by dashes. -/
theorem FromString_String (u : UUID) (h : u.length = 16) :
    FromString (UUID.String u) = Except.ok u ∧
    Validate (UUID.String u) = none ∧
    (UUID.String u).length = 36 ∧
    patternMatches (UUID.String u) = true := by
  obtain ⟨l1, l2, l3, l4, l5⟩ := slice_lengths u h
  have hlen : (UUID.String u).length = 36 := by
    unfold UUID.String
    simp only [List.length_append, List.length_cons, length_hex, l1, l2, l3, l4, l5]
  have hpat : patternMatches (UUID.String u) = true := by
    have m1 := matchHex_hex (slice u 0 4)
    have m2 := matchHex_hex (slice u 4 6)
    have m3 := matchHex_hex (slice u 6 8)
    have m4 := matchHex_hex (slice u 8 10)
    have m5 := matchHex_hex (u.drop 10) []
    rw [l1] at m1
    rw [l2] at m2
    rw [l3] at m3
    rw [l4] at m4
    rw [l5, List.append_nil] at m5
    unfold patternMatches UUID.String
    simp only [m1, m2, m3, m4, m5, Option.bind, matchDash, if_true, decide_True,
      Nat.reduceMul]
  refine ⟨?_, ?_, hlen, hpat⟩
  · unfold FromString
    rw [filter_String u, length_hex, h]
    have := parseBytes_hex u 0
    rw [h] at this
    simpa using this
  · unfold Validate
    simp [hlen, hpat]

/-- C30 at the UUID of bytes 0x00, 0x11, .. 0xff: its text is read back. -/
theorem FromString_String_witness :
    sampleUuid.length = 16 ∧ FromString (UUID.String sampleUuid) = Except.ok sampleUuid :=
  ⟨rfl, (FromString_String sampleUuid rfl).1⟩

end Uuid

end RideHail
